import Mathlib

/-!
Shallow embedding of `mm/page_isolation.c` (CMA page-block isolation):
the pageblock migratetype labels, the per-pageblock isolation primitive,
the range driver with rollback, and the two range verifiers
(the legacy one and the repairing CMA one), together with the theorems
checking the specification of the facility.

Functions implemented in that file are translated directly from its code.
External allocator primitives that the file only calls
(`set_migratetype_isolate_cma`, `move_freepages_block`, `move_freepages`,
`__mod_zone_freepage_state`) are modelled from the specification, as their
doc comments state.
-/

namespace PageIsolation

/-- The pageblock migration types of the data model (§3). -/
inductive MigrateType where
  | UNMOVABLE
  | RECLAIMABLE
  | MOVABLE
  | CMA
  | ISOLATE
deriving DecidableEq, Repr

/-- Numeric value of the migratetype enum, used where the source compares the
raw `page_private` word against `MIGRATE_ISOLATE`. -/
def MigrateType.code : MigrateType → Nat
  | .UNMOVABLE => 0
  | .RECLAIMABLE => 1
  | .MOVABLE => 2
  | .CMA => 3
  | .ISOLATE => 4

/-- The per-frame record: the fields of `struct page` this file reads
(buddy flag, buddy order, refcount, freepage-migratetype hint, hardware
poison flag, and the raw private word read by the legacy verifier). -/
structure Page where
  isBuddy : Bool
  order : Nat
  refcount : Nat
  freepageMT : MigrateType
  hwPoison : Bool
  privateField : Nat
deriving DecidableEq, Repr

/-- The zone state: frame validity (`pfn_valid_within`), per-frame page
records, per-pageblock migratetype labels (indexed by pageblock number,
i.e. pfn / pageblock_nr_pages), and the per-migratetype free-page counters.
Free-list membership of a free page is represented by its
freepage-migratetype hint (spec glossary: the hint records on which
migration-type free list a free page currently sits). -/
structure MemState where
  valid : Nat → Bool
  pages : Nat → Page
  blockLabel : Nat → MigrateType
  freeCount : MigrateType → Int

/-- Build parameters and allocator environment: the pageblock order
(`pageblock_nr_pages = 2 ^ pbOrder`) and the predicate
`has_unmovable_pages` of the allocator (given the pfn of the page argument and the
skip-hwpoisoned flag), which the isolation primitive delegates to. -/
structure Env where
  pbOrder : Nat
  hasUnmovable : Nat → Bool → Bool

/-- `pageblock_nr_pages`, a power of two fixed for the build. -/
def pageblock_nr_pages (env : Env) : Nat := 2 ^ env.pbOrder

/-- The errno value used by the source (`-EBUSY` is returned). -/
def EBUSY : Int := 16

/-- From the source (`__first_valid_page`): scan up to `nr_pages` frames from
`pfn` and return the first valid one, or none when the whole window is
invalid. -/
def __first_valid_page (s : MemState) (pfn nr_pages : Nat) : Option Nat :=
  ((List.range nr_pages).find? (fun i => s.valid (pfn + i))).map (fun i => pfn + i)

/-- Modelled from the spec: `move_freepages` (§4.B) is implemented by the
allocator outside this file. It relocates every currently-free page in the
inclusive frame window `[first, last]` to the free list of `mt` at its
current order, updates the freepage-migratetype hint of each moved page to `mt`,
and returns the number of frames moved (sum of `2^order` over the moved
extents). -/
def move_freepages (s : MemState) (first last : Nat) (mt : MigrateType) :
    Nat × MemState :=
  (((List.range (last + 1 - first)).map (fun i =>
      if s.valid (first + i) && (s.pages (first + i)).isBuddy
      then 2 ^ (s.pages (first + i)).order else 0)).sum,
   { s with pages := fun fn =>
       if first ≤ fn ∧ fn ≤ last ∧ s.valid fn ∧ (s.pages fn).isBuddy
       then { s.pages fn with freepageMT := mt } else s.pages fn })

/-- Modelled from the spec: `move_freepages_block` (§4.B) is the
whole-pageblock form, provided by the allocator, of the mover, applied to the pageblock containing the
given page. -/
def move_freepages_block (env : Env) (s : MemState) (pagePfn : Nat)
    (mt : MigrateType) : Nat × MemState :=
  move_freepages s (pagePfn / pageblock_nr_pages env * pageblock_nr_pages env)
    (pagePfn / pageblock_nr_pages env * pageblock_nr_pages env + pageblock_nr_pages env - 1)
    mt

/-- Modelled from the spec: `__mod_zone_freepage_state` is the
per-zone per-migratetype free-page counter update hook (§6). -/
def __mod_zone_freepage_state (s : MemState) (nr : Int) (mt : MigrateType) :
    MemState :=
  { s with freeCount := fun m => if m = mt then s.freeCount m + nr else s.freeCount m }

/-- From the source (`unset_migratetype_isolate_cma`): under the zone lock,
do nothing when the label of the pageblock is not `ISOLATE`; otherwise move the
free pages of the block to the free list of `migratetype`, add the moved
count to the free-page counter of `migratetype`, and set the pageblock label to
`migratetype`. -/
def unset_migratetype_isolate_cma (env : Env) (s : MemState) (pagePfn : Nat)
    (migratetype : MigrateType) : MemState :=
  if s.blockLabel (pagePfn / pageblock_nr_pages env) ≠ MigrateType.ISOLATE then s
  else
    { __mod_zone_freepage_state (move_freepages_block env s pagePfn migratetype).2
        ((move_freepages_block env s pagePfn migratetype).1 : Int) migratetype with
      blockLabel := fun x =>
        if x = pagePfn / pageblock_nr_pages env then migratetype
        else (__mod_zone_freepage_state (move_freepages_block env s pagePfn migratetype).2
          ((move_freepages_block env s pagePfn migratetype).1 : Int) migratetype).blockLabel x }

/-- Modelled from the spec: `set_migratetype_isolate_cma` is only called by
this file; its body lives in the allocator. Per §4.C it delegates the
decision to `has_unmovable_pages(page, skip_hwpoisoned)`; on true it fails
with `BUSY` without mutating state; on success it sets the pageblock label
to `ISOLATE`, moves the free pages of the block onto the `ISOLATE` list and
adjusts the free-page counter of the previous migratetype of the block by the
moved count. -/
def set_migratetype_isolate_cma (env : Env) (s : MemState) (pagePfn : Nat)
    (skip_hwpoisoned : Bool) : Int × MemState :=
  if env.hasUnmovable pagePfn skip_hwpoisoned then (-EBUSY, s)
  else
    (0, __mod_zone_freepage_state
      (move_freepages_block env
        { s with blockLabel := fun x =>
            if x = pagePfn / pageblock_nr_pages env then MigrateType.ISOLATE
            else s.blockLabel x } pagePfn MigrateType.ISOLATE).2
      (-((move_freepages_block env
        { s with blockLabel := fun x =>
            if x = pagePfn / pageblock_nr_pages env then MigrateType.ISOLATE
            else s.blockLabel x } pagePfn MigrateType.ISOLATE).1 : Int))
      (s.blockLabel (pagePfn / pageblock_nr_pages env)))

/-- From the source (`start_isolate_page_range_cma`, the `undo:` loop): walk
block starts from `pfn` up to `undo_pfn` and call the unset primitive on
`pfn_to_page(pfn)` for each, unconditionally — no validity scan and no label
guard at this level. -/
def isolate_undo_loop (env : Env) (migratetype : MigrateType) (s : MemState)
    (pfn undo_pfn : Nat) : MemState :=
  if _h : pfn < undo_pfn then
    isolate_undo_loop env migratetype
      (unset_migratetype_isolate_cma env s pfn migratetype)
      (pfn + pageblock_nr_pages env) undo_pfn
  else s
termination_by undo_pfn - pfn
decreasing_by
  have hB : 0 < pageblock_nr_pages env := Nat.two_pow_pos env.pbOrder
  omega

/-- From the source (`start_isolate_page_range_cma`, forward loop): for each
pageblock obtain the first valid page; if there is one and the isolation
primitive fails on it, record the block start as `undo_pfn`, run the undo
loop from `start_pfn` to `undo_pfn` and return `-EBUSY`; otherwise continue;
return `0` when the whole range is processed. -/
def isolate_loop (env : Env) (start_pfn : Nat) (migratetype : MigrateType)
    (skip : Bool) (s : MemState) (pfn end_pfn : Nat) : Int × MemState :=
  if _h : pfn < end_pfn then
    match __first_valid_page s pfn (pageblock_nr_pages env) with
    | none => isolate_loop env start_pfn migratetype skip s
        (pfn + pageblock_nr_pages env) end_pfn
    | some p =>
      if (set_migratetype_isolate_cma env s p skip).1 = 0 then
        isolate_loop env start_pfn migratetype skip
          (set_migratetype_isolate_cma env s p skip).2
          (pfn + pageblock_nr_pages env) end_pfn
      else (-EBUSY, isolate_undo_loop env migratetype
        (set_migratetype_isolate_cma env s p skip).2 start_pfn pfn)
  else (0, s)
termination_by end_pfn - pfn
decreasing_by
  all_goals
    have hB : 0 < pageblock_nr_pages env := Nat.two_pow_pos env.pbOrder
    omega

/-- From the source (`start_isolate_page_range_cma`): the `BUG_ON` alignment
checks on both bounds (modelled as aborting with `none`), then the forward
loop with rollback. -/
def start_isolate_page_range_cma (env : Env) (s : MemState)
    (start_pfn end_pfn : Nat) (migratetype : MigrateType)
    (skip_hwpoisoned_pages : Bool) : Option (Int × MemState) :=
  if start_pfn &&& (pageblock_nr_pages env - 1) ≠ 0 then none
  else if end_pfn &&& (pageblock_nr_pages env - 1) ≠ 0 then none
  else some (isolate_loop env start_pfn migratetype skip_hwpoisoned_pages s
    start_pfn end_pfn)

/-- From the source (`undo_isolate_page_range_cma`, loop body): for each
pageblock, take the first valid page; skip the block when there is none or
when the label of the block is not `ISOLATE`; otherwise call the unset primitive
on that page. -/
def undo_range_loop (env : Env) (migratetype : MigrateType) (s : MemState)
    (pfn end_pfn : Nat) : MemState :=
  if _h : pfn < end_pfn then
    match __first_valid_page s pfn (pageblock_nr_pages env) with
    | none => undo_range_loop env migratetype s (pfn + pageblock_nr_pages env) end_pfn
    | some p =>
      if s.blockLabel (p / pageblock_nr_pages env) ≠ MigrateType.ISOLATE then
        undo_range_loop env migratetype s (pfn + pageblock_nr_pages env) end_pfn
      else
        undo_range_loop env migratetype
          (unset_migratetype_isolate_cma env s p migratetype)
          (pfn + pageblock_nr_pages env) end_pfn
  else s
termination_by end_pfn - pfn
decreasing_by
  all_goals
    have hB : 0 < pageblock_nr_pages env := Nat.two_pow_pos env.pbOrder
    omega

/-- From the source (`undo_isolate_page_range_cma`): `BUG_ON` alignment
checks, then the guarded per-block unset loop; always returns 0. -/
def undo_isolate_page_range_cma (env : Env) (s : MemState)
    (start_pfn end_pfn : Nat) (migratetype : MigrateType) :
    Option (Int × MemState) :=
  if start_pfn &&& (pageblock_nr_pages env - 1) ≠ 0 then none
  else if end_pfn &&& (pageblock_nr_pages env - 1) ≠ 0 then none
  else some (0, undo_range_loop env migratetype s start_pfn end_pfn)

/-- From the source (`__test_page_isolated_in_pageblock`, the legacy
verifier): walk frames; skip invalid frames by 1; skip a buddy page by
`2^order`; skip a refcount-0 page whose raw private word equals the numeric
value of `MIGRATE_ISOLATE` by 1; otherwise break. Return 1 iff the walk
consumed the whole range. It mutates nothing and repairs nothing. -/
def __test_page_isolated_in_pageblock (s : MemState) (pfn end_pfn : Nat) : Nat :=
  if _h : pfn < end_pfn then
    if s.valid pfn = false then __test_page_isolated_in_pageblock s (pfn + 1) end_pfn
    else
      if (s.pages pfn).isBuddy then
        __test_page_isolated_in_pageblock s (pfn + 2 ^ (s.pages pfn).order) end_pfn
      else if (s.pages pfn).refcount = 0 ∧
          (s.pages pfn).privateField = MigrateType.code MigrateType.ISOLATE then
        __test_page_isolated_in_pageblock s (pfn + 1) end_pfn
      else 0
  else 1
termination_by end_pfn - pfn
decreasing_by
  all_goals
    have hp : 0 < 2 ^ (s.pages pfn).order := Nat.two_pow_pos (s.pages pfn).order
    omega

/-- From the source (`__test_page_isolated_in_pageblock_cma`): the repairing
content walk. Invalid frames advance by 1. A buddy page whose
freepage-migratetype hint is not `ISOLATE` is repaired by
`move_freepages(zone, page, page + (1 << order) - 1, MIGRATE_ISOLATE)`;
either way the walk advances by `2^order`. A refcount-0 page with hint
`ISOLATE` advances by 1, as does a hardware-poisoned page when
`skip_hwpoisoned` is set. Any other page records its pfn in the failed-pfn
out-parameter and breaks. Returns 1 iff the walk consumed the range,
together with the final state and the out-parameter. -/
def __test_page_isolated_in_pageblock_cma (s : MemState) (pfn end_pfn : Nat)
    (skip_hwpoisoned : Bool) (pfailed_pfn : Option Nat) :
    Nat × MemState × Option Nat :=
  if _h : pfn < end_pfn then
    if s.valid pfn = false then
      __test_page_isolated_in_pageblock_cma s (pfn + 1) end_pfn skip_hwpoisoned pfailed_pfn
    else
      if (s.pages pfn).isBuddy then
        __test_page_isolated_in_pageblock_cma
          (if (s.pages pfn).freepageMT ≠ MigrateType.ISOLATE
            then (move_freepages s pfn (pfn + 2 ^ (s.pages pfn).order - 1)
              MigrateType.ISOLATE).2
            else s)
          (pfn + 2 ^ (s.pages pfn).order) end_pfn skip_hwpoisoned pfailed_pfn
      else if (s.pages pfn).refcount = 0 ∧
          (s.pages pfn).freepageMT = MigrateType.ISOLATE then
        __test_page_isolated_in_pageblock_cma s (pfn + 1) end_pfn skip_hwpoisoned pfailed_pfn
      else if skip_hwpoisoned ∧ (s.pages pfn).hwPoison then
        __test_page_isolated_in_pageblock_cma s (pfn + 1) end_pfn skip_hwpoisoned pfailed_pfn
      else (0, s, some pfn)
  else (1, s, pfailed_pfn)
termination_by end_pfn - pfn
decreasing_by
  all_goals
    have hp : 0 < 2 ^ (s.pages pfn).order := Nat.two_pow_pos (s.pages pfn).order
    omega

/-- From the source (`test_pages_isolated_cma`, phase 1): walk block starts;
break (returning the current pfn) at the first block whose first valid page
has a pageblock label other than `ISOLATE`; return the loop-exit pfn
otherwise. -/
def test_phase1 (env : Env) (s : MemState) (pfn end_pfn : Nat) : Nat :=
  if _h : pfn < end_pfn then
    match __first_valid_page s pfn (pageblock_nr_pages env) with
    | none => test_phase1 env s (pfn + pageblock_nr_pages env) end_pfn
    | some p =>
      if s.blockLabel (p / pageblock_nr_pages env) ≠ MigrateType.ISOLATE then pfn
      else test_phase1 env s (pfn + pageblock_nr_pages env) end_pfn
  else pfn
termination_by end_pfn - pfn
decreasing_by
  all_goals
    have hB : 0 < pageblock_nr_pages env := Nat.two_pow_pos env.pbOrder
    omega

/-- From the source (`test_pages_isolated_cma`): phase-1 label walk, then the
first-valid-page lookup over the whole range; `-EBUSY` (without touching the
failed-pfn out-parameter) when phase 1 broke early or the range holds no
valid page; otherwise run the repairing content walk under the zone lock and
map its 1/0 verdict to `0`/`-EBUSY`. -/
def test_pages_isolated_cma (env : Env) (s : MemState) (start_pfn end_pfn : Nat)
    (skip_hwpoisoned : Bool) : Int × MemState × Option Nat :=
  if test_phase1 env s start_pfn end_pfn < end_pfn ∨
      __first_valid_page s start_pfn (end_pfn - start_pfn) = none then
    (-EBUSY, s, none)
  else
    (if (__test_page_isolated_in_pageblock_cma s start_pfn end_pfn
          skip_hwpoisoned none).1 ≠ 0
      then 0 else -EBUSY,
     (__test_page_isolated_in_pageblock_cma s start_pfn end_pfn
       skip_hwpoisoned none).2.1,
     (__test_page_isolated_in_pageblock_cma s start_pfn end_pfn
       skip_hwpoisoned none).2.2)

/-- A frame lying inside a buddy-free extent whose head page carries the
freepage hint ISOLATE: there is a valid buddy head at or below the frame
whose order covers it. -/
def in_isolate_buddy_extent (s : MemState) (fn : Nat) : Prop :=
  ∃ p, p ≤ fn ∧ s.valid p = true ∧ (s.pages p).isBuddy = true ∧
    fn < p + 2 ^ (s.pages p).order ∧ (s.pages p).freepageMT = MigrateType.ISOLATE

/-- The per-frame acceptance predicate of spec invariant 4: buddy-free with
freepage hint ISOLATE (read at the extent head), or refcount 0 with hint
ISOLATE, or tolerated hardware poison. -/
def frame_isolated_ok (s : MemState) (skip : Bool) (fn : Nat) : Prop :=
  in_isolate_buddy_extent s fn ∨
  ((s.pages fn).refcount = 0 ∧ (s.pages fn).freepageMT = MigrateType.ISOLATE) ∨
  (skip = true ∧ (s.pages fn).hwPoison = true)

/-! ### Concrete fixtures used by witnesses and counterexamples -/

/-- A build with one-frame pageblocks and a `has_unmovable_pages` that never
objects. -/
def envB1 : Env := ⟨0, fun _ _ => false⟩

/-- A build with two-frame pageblocks and a `has_unmovable_pages` that never
objects. -/
def env8f : Env := ⟨1, fun _ _ => false⟩

/-- One-frame pageblocks; `has_unmovable_pages` objects exactly at frame 1. -/
def envFailAt1 : Env := ⟨0, fun p _ => decide (p = 1)⟩

/-- An in-use, non-buddy, non-poisoned page. -/
def pageBase : Page := ⟨false, 0, 1, MigrateType.MOVABLE, false, 0⟩

/-- A buddy-free page of order 0 whose freepage hint is MOVABLE. -/
def pageBuddyMov : Page := ⟨true, 0, 0, MigrateType.MOVABLE, false, 0⟩

/-- One-frame pageblocks; `has_unmovable_pages` objects at frame 1. -/
def envFailAt1C10 : Env := ⟨0, fun p _ => decide (p = 1)⟩

/-- Frame 0 absent with its block labelled ISOLATE; frame 1 valid and in
use, block 1 labelled MOVABLE. -/
def sAbsent0Iso : MemState :=
  ⟨fun fn => decide (fn = 1), fun _ => pageBase,
   fun b => if b = 0 then MigrateType.ISOLATE else MigrateType.MOVABLE,
   fun _ => 0⟩

/-- Frames 0 and 1 valid and in use; block 0 labelled ISOLATE, the rest
MOVABLE. -/
def sIso0 : MemState :=
  ⟨fun fn => decide (fn < 2), fun _ => pageBase,
   fun b => if b = 0 then MigrateType.ISOLATE else MigrateType.MOVABLE,
   fun _ => 0⟩

/-- Frames 0 and 1 valid and in use; every pageblock labelled MOVABLE. -/
def sMov2 : MemState :=
  ⟨fun fn => decide (fn < 2), fun _ => pageBase, fun _ => MigrateType.MOVABLE,
   fun _ => 0⟩

/-- Frame 0 valid and buddy-free with hint MOVABLE; every block labelled
ISOLATE. -/
def sBuddyIso : MemState :=
  ⟨fun fn => decide (fn = 0), fun _ => pageBuddyMov,
   fun _ => MigrateType.ISOLATE, fun _ => 0⟩

/-- Frame 0 valid, in use (refcount 1), not poisoned; block labelled
ISOLATE. -/
def sBusy0 : MemState :=
  ⟨fun fn => decide (fn = 0), fun _ => pageBase,
   fun _ => MigrateType.ISOLATE, fun _ => 0⟩

/-- A buddy-free page of order 0, refcount 0, hint ISOLATE, private word
carrying the ISOLATE code. -/
def pageBuddyIso : Page := ⟨true, 0, 0, MigrateType.ISOLATE, false, 4⟩

/-- Frame 0 valid and buddy-free with ISOLATE hint; all blocks ISOLATE. -/
def sIsoOk : MemState :=
  ⟨fun fn => decide (fn = 0), fun _ => pageBuddyIso,
   fun _ => MigrateType.ISOLATE, fun _ => 0⟩

/-- Frame 0 valid and buddy-free of order 0 with hint MOVABLE; block 0
labelled MOVABLE. -/
def sBuddyMov : MemState :=
  ⟨fun fn => decide (fn = 0), fun _ => pageBuddyMov,
   fun _ => MigrateType.MOVABLE, fun _ => 0⟩

/-- All frames valid and in use, every pageblock labelled MOVABLE. -/
def sFree : MemState :=
  ⟨fun _ => true, fun _ => pageBase, fun _ => MigrateType.MOVABLE, fun _ => 0⟩

/-- No frame is valid; every pageblock labelled MOVABLE. -/
def sAbsent : MemState :=
  ⟨fun _ => false, fun _ => pageBase, fun _ => MigrateType.MOVABLE, fun _ => 0⟩

/-! ### Basic facts about the embedding -/

theorem pageblock_pos (env : Env) : 0 < pageblock_nr_pages env :=
  Nat.two_pow_pos env.pbOrder

theorem block_div (env : Env) (q i : Nat) (h : i < pageblock_nr_pages env) :
    (pageblock_nr_pages env * q + i) / pageblock_nr_pages env = q := by
  rw [Nat.mul_add_div (pageblock_pos env), Nat.div_eq_of_lt h, Nat.add_zero]

theorem block_div_self (env : Env) (q : Nat) :
    pageblock_nr_pages env * q / pageblock_nr_pages env = q := by
  have h := block_div env q 0 (pageblock_pos env)
  simpa using h

theorem block_mul_lt (env : Env) {q e : Nat} :
    pageblock_nr_pages env * q < pageblock_nr_pages env * e ↔ q < e :=
  Nat.mul_lt_mul_left (pageblock_pos env)

theorem land_mod (env : Env) (x : Nat) :
    x &&& (pageblock_nr_pages env - 1) = x % pageblock_nr_pages env := by
  unfold pageblock_nr_pages
  exact Nat.and_pow_two_sub_one_eq_mod x env.pbOrder

theorem first_valid_some {s : MemState} {pfn n p : Nat}
    (h : __first_valid_page s pfn n = some p) :
    pfn ≤ p ∧ p < pfn + n ∧ s.valid p = true := by
  unfold __first_valid_page at h
  cases hf : (List.range n).find? (fun i => s.valid (pfn + i)) with
  | none => rw [hf] at h; simp at h
  | some i =>
    rw [hf] at h
    simp at h
    have hmem : i ∈ List.range n := List.mem_of_find?_eq_some hf
    have hval : s.valid (pfn + i) = true := by
      have hx := List.find?_some hf
      simpa using hx
    have hlt : i < n := List.mem_range.mp hmem
    subst h
    exact ⟨Nat.le_add_right _ _, by omega, hval⟩

theorem first_valid_none {s : MemState} {pfn n : Nat}
    (h : ∀ i, i < n → s.valid (pfn + i) = false) :
    __first_valid_page s pfn n = none := by
  unfold __first_valid_page
  have hn : (List.range n).find? (fun i => s.valid (pfn + i)) = none := by
    rw [List.find?_eq_none]
    intro i hi
    simp [h i (List.mem_range.mp hi)]
  rw [hn]
  rfl

theorem first_valid_congr {s s2 : MemState} (h : s2.valid = s.valid) (pfn n : Nat) :
    __first_valid_page s2 pfn n = __first_valid_page s pfn n := by
  unfold __first_valid_page
  rw [h]

theorem move_freepages_valid (s : MemState) (a b : Nat) (mt : MigrateType) :
    ((move_freepages s a b mt).2).valid = s.valid := rfl

theorem move_freepages_blockLabel (s : MemState) (a b : Nat) (mt : MigrateType) :
    ((move_freepages s a b mt).2).blockLabel = s.blockLabel := rfl

theorem move_freepages_freeCount (s : MemState) (a b : Nat) (mt : MigrateType) :
    ((move_freepages s a b mt).2).freeCount = s.freeCount := rfl

theorem move_freepages_pages (s : MemState) (a b : Nat) (mt : MigrateType) (fn : Nat) :
    ((move_freepages s a b mt).2).pages fn =
      if a ≤ fn ∧ fn ≤ b ∧ s.valid fn ∧ (s.pages fn).isBuddy
      then { s.pages fn with freepageMT := mt } else s.pages fn := rfl

theorem move_freepages_pages_lt {s : MemState} {a b fn : Nat} (mt : MigrateType)
    (h : fn < a) : ((move_freepages s a b mt).2).pages fn = s.pages fn := by
  rw [move_freepages_pages, if_neg]
  intro hc
  omega

theorem move_freepages_isBuddy (s : MemState) (a b : Nat) (mt : MigrateType) (fn : Nat) :
    (((move_freepages s a b mt).2).pages fn).isBuddy = (s.pages fn).isBuddy := by
  rw [move_freepages_pages]
  split <;> rfl

theorem move_freepages_order (s : MemState) (a b : Nat) (mt : MigrateType) (fn : Nat) :
    (((move_freepages s a b mt).2).pages fn).order = (s.pages fn).order := by
  rw [move_freepages_pages]
  split <;> rfl

theorem move_freepages_refcount (s : MemState) (a b : Nat) (mt : MigrateType) (fn : Nat) :
    (((move_freepages s a b mt).2).pages fn).refcount = (s.pages fn).refcount := by
  rw [move_freepages_pages]
  split <;> rfl

theorem move_freepages_hwPoison (s : MemState) (a b : Nat) (mt : MigrateType) (fn : Nat) :
    (((move_freepages s a b mt).2).pages fn).hwPoison = (s.pages fn).hwPoison := by
  rw [move_freepages_pages]
  split <;> rfl

theorem unset_noop {env : Env} {s : MemState} {p : Nat} {mt : MigrateType}
    (h : s.blockLabel (p / pageblock_nr_pages env) ≠ MigrateType.ISOLATE) :
    unset_migratetype_isolate_cma env s p mt = s := by
  unfold unset_migratetype_isolate_cma
  rw [if_pos h]

theorem unset_valid (env : Env) (s : MemState) (p : Nat) (mt : MigrateType) :
    (unset_migratetype_isolate_cma env s p mt).valid = s.valid := by
  unfold unset_migratetype_isolate_cma
  split <;> rfl

theorem unset_freeCount_of_iso {env : Env} {s : MemState} {p : Nat}
    {mt : MigrateType}
    (h : s.blockLabel (p / pageblock_nr_pages env) = MigrateType.ISOLATE) :
    (unset_migratetype_isolate_cma env s p mt).freeCount =
      fun m => if m = mt
        then s.freeCount m + ((move_freepages_block env s p mt).1 : Int)
        else s.freeCount m := by
  unfold unset_migratetype_isolate_cma
  rw [if_neg (not_not_intro h)]
  rfl

theorem unset_blockLabel (env : Env) (s : MemState) (p : Nat) (mt : MigrateType)
    (b : Nat) :
    (unset_migratetype_isolate_cma env s p mt).blockLabel b =
      if s.blockLabel (p / pageblock_nr_pages env) = MigrateType.ISOLATE ∧
          b = p / pageblock_nr_pages env
      then mt else s.blockLabel b := by
  unfold unset_migratetype_isolate_cma
  by_cases hiso : s.blockLabel (p / pageblock_nr_pages env) = MigrateType.ISOLATE
  · rw [if_neg (not_not_intro hiso)]
    show (if b = p / pageblock_nr_pages env then mt else s.blockLabel b) = _
    by_cases hb : b = p / pageblock_nr_pages env
    · rw [if_pos hb, if_pos ⟨hiso, hb⟩]
    · rw [if_neg hb, if_neg (fun hc => hb hc.2)]
  · rw [if_pos hiso, if_neg (fun hc => hiso hc.1)]

theorem unset_pages (env : Env) (s : MemState) (p : Nat) (mt : MigrateType) (fn : Nat) :
    (unset_migratetype_isolate_cma env s p mt).pages fn =
      if s.blockLabel (p / pageblock_nr_pages env) = MigrateType.ISOLATE
      then ((move_freepages_block env s p mt).2).pages fn else s.pages fn := by
  unfold unset_migratetype_isolate_cma
  by_cases hiso : s.blockLabel (p / pageblock_nr_pages env) = MigrateType.ISOLATE
  · rw [if_neg (not_not_intro hiso), if_pos hiso]
    rfl
  · rw [if_pos hiso, if_neg hiso]

theorem set_fail {env : Env} {s : MemState} {p : Nat} {skip : Bool}
    (h : env.hasUnmovable p skip = true) :
    set_migratetype_isolate_cma env s p skip = (-EBUSY, s) := by
  unfold set_migratetype_isolate_cma
  rw [if_pos h]

theorem set_fst_eq_zero {env : Env} {s : MemState} {p : Nat} {skip : Bool} :
    (set_migratetype_isolate_cma env s p skip).1 = 0 ↔
      env.hasUnmovable p skip = false := by
  unfold set_migratetype_isolate_cma
  cases h : env.hasUnmovable p skip
  · simp
  · rw [if_pos rfl]
    unfold EBUSY
    simp

theorem set_fail_state {env : Env} {s : MemState} {p : Nat} {skip : Bool}
    (h : (set_migratetype_isolate_cma env s p skip).1 ≠ 0) :
    (set_migratetype_isolate_cma env s p skip).2 = s := by
  cases hc : env.hasUnmovable p skip
  · exfalso
    apply h
    rw [set_fst_eq_zero]
    exact hc
  · rw [set_fail hc]

theorem set_valid (env : Env) (s : MemState) (p : Nat) (skip : Bool) :
    ((set_migratetype_isolate_cma env s p skip).2).valid = s.valid := by
  unfold set_migratetype_isolate_cma
  split <;> rfl

theorem set_blockLabel {env : Env} {s : MemState} {p : Nat} {skip : Bool}
    (h : env.hasUnmovable p skip = false) (b : Nat) :
    ((set_migratetype_isolate_cma env s p skip).2).blockLabel b =
      if b = p / pageblock_nr_pages env then MigrateType.ISOLATE
      else s.blockLabel b := by
  unfold set_migratetype_isolate_cma
  rw [if_neg (by simp [h])]
  rfl

theorem set_pages {env : Env} {s : MemState} {p : Nat} {skip : Bool}
    (h : env.hasUnmovable p skip = false) (fn : Nat) :
    ((set_migratetype_isolate_cma env s p skip).2).pages fn =
      if p / pageblock_nr_pages env * pageblock_nr_pages env ≤ fn ∧
          fn ≤ p / pageblock_nr_pages env * pageblock_nr_pages env +
            pageblock_nr_pages env - 1 ∧
          s.valid fn ∧ (s.pages fn).isBuddy
      then { s.pages fn with freepageMT := MigrateType.ISOLATE } else s.pages fn := by
  unfold set_migratetype_isolate_cma
  rw [if_neg (by simp [h])]
  rfl

/-! ### Loop behavior on empty and all-absent ranges -/

theorem isolate_loop_stop {env : Env} {st : Nat} {mt : MigrateType} {skip : Bool}
    {s : MemState} {pfn e : Nat} (h : ¬ pfn < e) :
    isolate_loop env st mt skip s pfn e = (0, s) := by
  rw [isolate_loop, dif_neg h]

theorem undo_range_loop_stop {env : Env} {mt : MigrateType} {s : MemState}
    {pfn e : Nat} (h : ¬ pfn < e) :
    undo_range_loop env mt s pfn e = s := by
  rw [undo_range_loop, dif_neg h]

theorem isolate_undo_loop_stop {env : Env} {mt : MigrateType} {s : MemState}
    {pfn u : Nat} (h : ¬ pfn < u) :
    isolate_undo_loop env mt s pfn u = s := by
  rw [isolate_undo_loop, dif_neg h]

theorem test_phase1_stop {env : Env} {s : MemState} {pfn e : Nat} (h : ¬ pfn < e) :
    test_phase1 env s pfn e = pfn := by
  rw [test_phase1, dif_neg h]

theorem block_step (env : Env) (q : Nat) :
    pageblock_nr_pages env * q + pageblock_nr_pages env =
      pageblock_nr_pages env * (q + 1) := by
  rw [Nat.mul_succ]

theorem isolate_loop_absent (env : Env) (st : Nat) (mt : MigrateType) (skip : Bool) :
    ∀ (n q e : Nat) (s : MemState), e - q ≤ n →
      (∀ fn, pageblock_nr_pages env * q ≤ fn → fn < pageblock_nr_pages env * e →
        s.valid fn = false) →
      isolate_loop env st mt skip s (pageblock_nr_pages env * q)
        (pageblock_nr_pages env * e) = (0, s) := by
  intro n
  induction n with
  | zero =>
    intro q e s hle habs
    apply isolate_loop_stop
    rw [block_mul_lt env]
    omega
  | succ n ih =>
    intro q e s hle habs
    by_cases hqe : q < e
    · rw [isolate_loop, dif_pos ((block_mul_lt env).mpr hqe)]
      have hnone : __first_valid_page s (pageblock_nr_pages env * q)
          (pageblock_nr_pages env) = none := by
        apply first_valid_none
        intro i hi
        apply habs
        · exact Nat.le_add_right _ _
        · calc pageblock_nr_pages env * q + i
              < pageblock_nr_pages env * (q + 1) := by
                rw [← block_step env q]; omega
            _ ≤ pageblock_nr_pages env * e := Nat.mul_le_mul_left _ hqe
      simp only [hnone]
      rw [block_step env q]
      exact ih (q + 1) e s (by omega) (fun fn h1 h2 => habs fn
        (le_trans (Nat.mul_le_mul_left _ (Nat.le_succ q)) h1) h2)
    · exact isolate_loop_stop (by rw [block_mul_lt env]; omega)

theorem undo_range_loop_absent (env : Env) (mt : MigrateType) :
    ∀ (n q e : Nat) (s : MemState), e - q ≤ n →
      (∀ fn, pageblock_nr_pages env * q ≤ fn → fn < pageblock_nr_pages env * e →
        s.valid fn = false) →
      undo_range_loop env mt s (pageblock_nr_pages env * q)
        (pageblock_nr_pages env * e) = s := by
  intro n
  induction n with
  | zero =>
    intro q e s hle habs
    apply undo_range_loop_stop
    rw [block_mul_lt env]
    omega
  | succ n ih =>
    intro q e s hle habs
    by_cases hqe : q < e
    · rw [undo_range_loop, dif_pos ((block_mul_lt env).mpr hqe)]
      have hnone : __first_valid_page s (pageblock_nr_pages env * q)
          (pageblock_nr_pages env) = none := by
        apply first_valid_none
        intro i hi
        apply habs
        · exact Nat.le_add_right _ _
        · calc pageblock_nr_pages env * q + i
              < pageblock_nr_pages env * (q + 1) := by
                rw [← block_step env q]; omega
            _ ≤ pageblock_nr_pages env * e := Nat.mul_le_mul_left _ hqe
      simp only [hnone]
      rw [block_step env q]
      exact ih (q + 1) e s (by omega) (fun fn h1 h2 => habs fn
        (le_trans (Nat.mul_le_mul_left _ (Nat.le_succ q)) h1) h2)
    · exact undo_range_loop_stop (by rw [block_mul_lt env]; omega)

theorem test_phase1_absent (env : Env) :
    ∀ (n q e : Nat) (s : MemState), e - q ≤ n →
      (∀ fn, pageblock_nr_pages env * q ≤ fn → fn < pageblock_nr_pages env * e →
        s.valid fn = false) →
      pageblock_nr_pages env * e ≤
        test_phase1 env s (pageblock_nr_pages env * q) (pageblock_nr_pages env * e) := by
  intro n
  induction n with
  | zero =>
    intro q e s hle habs
    rw [test_phase1_stop (by rw [block_mul_lt env]; omega)]
    exact Nat.mul_le_mul_left _ (by omega)
  | succ n ih =>
    intro q e s hle habs
    by_cases hqe : q < e
    · rw [test_phase1, dif_pos ((block_mul_lt env).mpr hqe)]
      have hnone : __first_valid_page s (pageblock_nr_pages env * q)
          (pageblock_nr_pages env) = none := by
        apply first_valid_none
        intro i hi
        apply habs
        · exact Nat.le_add_right _ _
        · calc pageblock_nr_pages env * q + i
              < pageblock_nr_pages env * (q + 1) := by
                rw [← block_step env q]; omega
            _ ≤ pageblock_nr_pages env * e := Nat.mul_le_mul_left _ hqe
      simp only [hnone]
      rw [block_step env q]
      exact ih (q + 1) e s (by omega) (fun fn h1 h2 => habs fn
        (le_trans (Nat.mul_le_mul_left _ (Nat.le_succ q)) h1) h2)
    · rw [test_phase1_stop (by rw [block_mul_lt env]; omega)]
      exact Nat.mul_le_mul_left _ (by omega)

theorem block_aligned_land (env : Env) (q : Nat) :
    pageblock_nr_pages env * q &&& (pageblock_nr_pages env - 1) = 0 := by
  rw [land_mod]
  exact Nat.mul_mod_right _ _

/-! ### Claim C8 -/

/-- C8: a call to `isolate_range` or `undo_range` whose `start` or `end` is
not a multiple of the pageblock size aborts (the `BUG_ON` fires, modelled as
`none`) before touching any state, and under aligned inputs the abort branch
is unreachable (the call produces a result). -/
theorem c8_alignment_abort (env : Env) (s : MemState) (start_pfn end_pfn : Nat)
    (mt : MigrateType) (skip : Bool) :
    ((start_pfn % pageblock_nr_pages env ≠ 0 ∨
        end_pfn % pageblock_nr_pages env ≠ 0) →
      start_isolate_page_range_cma env s start_pfn end_pfn mt skip = none ∧
      undo_isolate_page_range_cma env s start_pfn end_pfn mt = none) ∧
    (start_pfn % pageblock_nr_pages env = 0 →
      end_pfn % pageblock_nr_pages env = 0 →
      (start_isolate_page_range_cma env s start_pfn end_pfn mt skip).isSome = true ∧
      (undo_isolate_page_range_cma env s start_pfn end_pfn mt).isSome = true) := by
  unfold start_isolate_page_range_cma undo_isolate_page_range_cma
  simp only [land_mod]
  constructor
  · rintro (h | h) <;> constructor <;> split_ifs <;> simp_all
  · intro h1 h2
    rw [if_neg (not_not_intro h1), if_neg (not_not_intro h2),
      if_neg (not_not_intro h1), if_neg (not_not_intro h2)]
    exact ⟨rfl, rfl⟩

/-- Witness for C8 at a concrete input: with pageblock size 2, the call at
start 1 aborts and the call at start 0, end 2 does not. -/
theorem c8_witness :
    start_isolate_page_range_cma env8f sFree 1 2 MigrateType.MOVABLE false = none ∧
    (start_isolate_page_range_cma env8f sFree 0 2 MigrateType.MOVABLE false).isSome
      = true := by
  constructor
  · exact ((c8_alignment_abort env8f sFree 1 2 MigrateType.MOVABLE false).1
      (Or.inl (by decide))).1
  · exact ((c8_alignment_abort env8f sFree 0 2 MigrateType.MOVABLE false).2
      (by decide) (by decide)).1

/-! ### Claim C5 -/

/-- C5 counterexample: the claim states that `test_range` returns 0 on an
empty range and on a range containing only absent frames; on the code it
returns `-EBUSY` in both cases, because `__first_valid_page` over the range
yields no page. -/
theorem c5_counterexample :
    (test_pages_isolated_cma envB1 sFree 5 5 false).1 = -EBUSY ∧
    (test_pages_isolated_cma envB1 sAbsent 0 2 false).1 = -EBUSY := by
  constructor <;>
    simp +decide [test_pages_isolated_cma, test_phase1, __first_valid_page, EBUSY]

/-- C5 (amended): an empty aligned range is a no-op for all three range
operations and `isolate_range` and `undo_range` return 0 there, as they do on
a range containing only absent frames; `test_range`, however, while making no
state change, returns `-EBUSY` (not 0) on an empty range and on an all-absent
range, because the whole-range `__first_valid_page` lookup finds no page. -/
theorem c5_boundary_noops (env : Env) (s : MemState) (q e : Nat)
    (mt : MigrateType) (skip : Bool) :
    (start_isolate_page_range_cma env s (pageblock_nr_pages env * q)
        (pageblock_nr_pages env * q) mt skip = some (0, s)) ∧
    (undo_isolate_page_range_cma env s (pageblock_nr_pages env * q)
        (pageblock_nr_pages env * q) mt = some (0, s)) ∧
    (test_pages_isolated_cma env s (pageblock_nr_pages env * q)
        (pageblock_nr_pages env * q) skip = (-EBUSY, s, none)) ∧
    ((∀ fn, pageblock_nr_pages env * q ≤ fn → fn < pageblock_nr_pages env * e →
        s.valid fn = false) →
      (start_isolate_page_range_cma env s (pageblock_nr_pages env * q)
          (pageblock_nr_pages env * e) mt skip = some (0, s)) ∧
      (undo_isolate_page_range_cma env s (pageblock_nr_pages env * q)
          (pageblock_nr_pages env * e) mt = some (0, s)) ∧
      (test_pages_isolated_cma env s (pageblock_nr_pages env * q)
          (pageblock_nr_pages env * e) skip = (-EBUSY, s, none))) := by
  have hal : ∀ x : Nat, ¬ pageblock_nr_pages env * x &&&
      (pageblock_nr_pages env - 1) ≠ 0 :=
    fun x => not_not_intro (block_aligned_land env x)
  refine ⟨?_, ?_, ?_, ?_⟩
  · unfold start_isolate_page_range_cma
    rw [if_neg (hal q), if_neg (hal q)]
    rw [isolate_loop_stop (lt_irrefl _)]
  · unfold undo_isolate_page_range_cma
    rw [if_neg (hal q), if_neg (hal q)]
    rw [undo_range_loop_stop (lt_irrefl _)]
  · unfold test_pages_isolated_cma
    rw [if_pos]
    exact Or.inr (by simp [__first_valid_page])
  · intro habs
    refine ⟨?_, ?_, ?_⟩
    · unfold start_isolate_page_range_cma
      rw [if_neg (hal q), if_neg (hal e)]
      rw [isolate_loop_absent env _ mt skip (e - q) q e s (le_refl _) habs]
    · unfold undo_isolate_page_range_cma
      rw [if_neg (hal q), if_neg (hal e)]
      rw [undo_range_loop_absent env mt (e - q) q e s (le_refl _) habs]
    · unfold test_pages_isolated_cma
      rw [if_pos]
      refine Or.inr (first_valid_none ?_)
      intro i hi
      exact habs _ (Nat.le_add_right _ _) (by omega)

/-- Witness for C5 (amended) at a concrete input: one-frame pageblocks, range
of two all-absent blocks. -/
theorem c5_witness :
    start_isolate_page_range_cma envB1 sAbsent (pageblock_nr_pages envB1 * 0)
      (pageblock_nr_pages envB1 * 2) MigrateType.MOVABLE false
      = some (0, sAbsent) ∧
    test_pages_isolated_cma envB1 sAbsent (pageblock_nr_pages envB1 * 0)
      (pageblock_nr_pages envB1 * 2) false = (-EBUSY, sAbsent, none) := by
  have h := (c5_boundary_noops envB1 sAbsent 0 2 MigrateType.MOVABLE false).2.2.2
    (fun fn h1 h2 => rfl)
  exact ⟨h.1, h.2.2⟩

/-! ### Rollback-loop lemmas -/

theorem block_div_of_range (env : Env) {q p : Nat}
    (h1 : pageblock_nr_pages env * q ≤ p)
    (h2 : p < pageblock_nr_pages env * q + pageblock_nr_pages env) :
    p / pageblock_nr_pages env = q := by
  have hp : p = pageblock_nr_pages env * q + (p - pageblock_nr_pages env * q) := by
    omega
  rw [hp]
  exact block_div env q _ (by omega)

theorem isolate_undo_loop_label_stable (env : Env) (mt : MigrateType) :
    ∀ (n q u : Nat) (s : MemState) (b : Nat), u - q ≤ n →
      (isolate_undo_loop env mt s (pageblock_nr_pages env * q)
          (pageblock_nr_pages env * u)).blockLabel b = s.blockLabel b ∨
      (isolate_undo_loop env mt s (pageblock_nr_pages env * q)
          (pageblock_nr_pages env * u)).blockLabel b = mt := by
  intro n
  induction n with
  | zero =>
    intro q u s b hle
    rw [isolate_undo_loop_stop (by rw [block_mul_lt env]; omega)]
    exact Or.inl rfl
  | succ n ih =>
    intro q u s b hle
    by_cases hqu : q < u
    · rw [isolate_undo_loop, dif_pos ((block_mul_lt env).mpr hqu)]
      rw [block_step env q]
      rcases ih (q + 1) u (unset_migratetype_isolate_cma env s
          (pageblock_nr_pages env * q) mt) b (by omega) with h | h
      · rw [h, unset_blockLabel]
        split
        · exact Or.inr rfl
        · exact Or.inl rfl
      · exact Or.inr h
    · rw [isolate_undo_loop_stop (by rw [block_mul_lt env]; omega)]
      exact Or.inl rfl

theorem isolate_undo_loop_clears (env : Env) (mt : MigrateType)
    (hmt : mt ≠ MigrateType.ISOLATE) :
    ∀ (n q u : Nat) (s : MemState) (b : Nat), u - q ≤ n → q ≤ b → b < u →
      (isolate_undo_loop env mt s (pageblock_nr_pages env * q)
          (pageblock_nr_pages env * u)).blockLabel b ≠ MigrateType.ISOLATE := by
  intro n
  induction n with
  | zero =>
    intro q u s b hle h1 h2
    omega
  | succ n ih =>
    intro q u s b hle h1 h2
    have hqu : q < u := by omega
    rw [isolate_undo_loop, dif_pos ((block_mul_lt env).mpr hqu)]
    rw [block_step env q]
    by_cases hb : b = q
    · subst hb
      have hdiv : pageblock_nr_pages env * b / pageblock_nr_pages env = b :=
        block_div_self env b
      have hs1 : (unset_migratetype_isolate_cma env s
          (pageblock_nr_pages env * b) mt).blockLabel b ≠ MigrateType.ISOLATE := by
        rw [unset_blockLabel, hdiv]
        by_cases hiso : s.blockLabel b = MigrateType.ISOLATE
        · rw [if_pos ⟨hiso, rfl⟩]
          exact hmt
        · rw [if_neg (fun hc => hiso hc.1)]
          exact hiso
      rcases isolate_undo_loop_label_stable env mt n (b + 1) u
          (unset_migratetype_isolate_cma env s (pageblock_nr_pages env * b) mt) b
          (by omega) with h | h
      · rw [h]
        exact hs1
      · rw [h]
        exact hmt
    · exact ih (q + 1) u _ b (by omega) (by omega) h2

theorem isolate_undo_loop_outside (env : Env) (mt : MigrateType) :
    ∀ (n q u : Nat) (s : MemState) (b : Nat), u - q ≤ n → ¬(q ≤ b ∧ b < u) →
      (isolate_undo_loop env mt s (pageblock_nr_pages env * q)
          (pageblock_nr_pages env * u)).blockLabel b = s.blockLabel b := by
  intro n
  induction n with
  | zero =>
    intro q u s b hle hout
    rw [isolate_undo_loop_stop (by rw [block_mul_lt env]; omega)]
  | succ n ih =>
    intro q u s b hle hout
    by_cases hqu : q < u
    · rw [isolate_undo_loop, dif_pos ((block_mul_lt env).mpr hqu)]
      rw [block_step env q]
      rw [ih (q + 1) u _ b (by omega) (by omega)]
      rw [unset_blockLabel, block_div_self env q]
      rw [if_neg (fun hc => by omega)]
    · rw [isolate_undo_loop_stop (by rw [block_mul_lt env]; omega)]

theorem isolate_undo_loop_valid (env : Env) (mt : MigrateType) :
    ∀ (n q u : Nat) (s : MemState), u - q ≤ n →
      (isolate_undo_loop env mt s (pageblock_nr_pages env * q)
          (pageblock_nr_pages env * u)).valid = s.valid := by
  intro n
  induction n with
  | zero =>
    intro q u s hle
    rw [isolate_undo_loop_stop (by rw [block_mul_lt env]; omega)]
  | succ n ih =>
    intro q u s hle
    by_cases hqu : q < u
    · rw [isolate_undo_loop, dif_pos ((block_mul_lt env).mpr hqu)]
      rw [block_step env q]
      rw [ih (q + 1) u _ (by omega)]
      exact unset_valid env s _ mt
    · rw [isolate_undo_loop_stop (by rw [block_mul_lt env]; omega)]

/-! ### Claim C10 -/

/-- C10: the rollback loop of `isolate_range` calls `unset_isolate` on the
first frame of every pageblock in `[start, undo_from)` unconditionally —
without the first-valid-frame scan of the forward pass and without the
label guard of `undo_range`. Consequence proved here: a pageblock whose
frames are all absent, skipped with no state change on the forward pass,
still has its `ISOLATE` label rewritten to the undo migratetype by the
rollback, while `undo_range` over the same range skips it and leaves the
label `ISOLATE`. -/
theorem c10_rollback_unconditional (env : Env) (s : MemState) (q : Nat)
    (mt : MigrateType) (skip : Bool) (p : Nat)
    (habs : ∀ i, i < pageblock_nr_pages env →
      s.valid (pageblock_nr_pages env * q + i) = false)
    (hiso : s.blockLabel q = MigrateType.ISOLATE)
    (hfv : __first_valid_page s (pageblock_nr_pages env * (q + 1))
      (pageblock_nr_pages env) = some p)
    (hun : env.hasUnmovable p skip = true) :
    (∃ s1, start_isolate_page_range_cma env s (pageblock_nr_pages env * q)
        (pageblock_nr_pages env * (q + 2)) mt skip = some (-EBUSY, s1) ∧
      s1.blockLabel q = mt) ∧
    (∃ s2, undo_isolate_page_range_cma env s (pageblock_nr_pages env * q)
        (pageblock_nr_pages env * (q + 2)) mt = some (0, s2) ∧
      s2.blockLabel q = MigrateType.ISOLATE) := by
  have hal : ∀ x : Nat, ¬ pageblock_nr_pages env * x &&&
      (pageblock_nr_pages env - 1) ≠ 0 :=
    fun x => not_not_intro (block_aligned_land env x)
  have hnone : __first_valid_page s (pageblock_nr_pages env * q)
      (pageblock_nr_pages env) = none := first_valid_none habs
  have hpdiv : p / pageblock_nr_pages env = q + 1 := by
    obtain ⟨hp1, hp2, _⟩ := first_valid_some hfv
    exact block_div_of_range env hp1 hp2
  constructor
  · unfold start_isolate_page_range_cma
    rw [if_neg (hal q), if_neg (hal (q + 2))]
    rw [isolate_loop, dif_pos ((block_mul_lt env).mpr (by omega))]
    simp only [hnone]
    rw [block_step env q]
    rw [isolate_loop, dif_pos ((block_mul_lt env).mpr (by omega))]
    simp only [hfv]
    rw [if_neg (by
      rw [set_fst_eq_zero]
      simp [hun])]
    rw [set_fail hun]
    refine ⟨_, rfl, ?_⟩
    show (isolate_undo_loop env mt s (pageblock_nr_pages env * q)
      (pageblock_nr_pages env * (q + 1))).blockLabel q = mt
    rw [isolate_undo_loop, dif_pos ((block_mul_lt env).mpr (by omega))]
    rw [block_step env q]
    rw [isolate_undo_loop_stop (lt_irrefl _)]
    rw [unset_blockLabel, block_div_self env q]
    rw [if_pos ⟨hiso, rfl⟩]
  · unfold undo_isolate_page_range_cma
    rw [if_neg (hal q), if_neg (hal (q + 2))]
    rw [undo_range_loop, dif_pos ((block_mul_lt env).mpr (by omega))]
    simp only [hnone]
    rw [block_step env q]
    rw [undo_range_loop, dif_pos ((block_mul_lt env).mpr (by omega))]
    simp only [hfv]
    by_cases hlbl : s.blockLabel (p / pageblock_nr_pages env) = MigrateType.ISOLATE
    · rw [if_neg (not_not_intro hlbl)]
      rw [block_step env (q + 1)]
      rw [undo_range_loop_stop (lt_irrefl _)]
      refine ⟨_, rfl, ?_⟩
      rw [unset_blockLabel]
      rw [if_neg (fun hc => by omega)]
      exact hiso
    · rw [if_pos hlbl]
      rw [block_step env (q + 1)]
      rw [undo_range_loop_stop (lt_irrefl _)]
      exact ⟨_, rfl, hiso⟩

/-- Witness for C10 at a concrete input: one-frame pageblocks, block 0
absent and labelled ISOLATE, block 1 valid but unmovable. -/
theorem c10_witness :
    (∃ s1, start_isolate_page_range_cma envFailAt1C10 sAbsent0Iso
        (pageblock_nr_pages envFailAt1C10 * 0) (pageblock_nr_pages envFailAt1C10 * 2)
        MigrateType.MOVABLE false = some (-EBUSY, s1) ∧
      s1.blockLabel 0 = MigrateType.MOVABLE) ∧
    (∃ s2, undo_isolate_page_range_cma envFailAt1C10 sAbsent0Iso
        (pageblock_nr_pages envFailAt1C10 * 0) (pageblock_nr_pages envFailAt1C10 * 2)
        MigrateType.MOVABLE = some (0, s2) ∧
      s2.blockLabel 0 = MigrateType.ISOLATE) :=
  c10_rollback_unconditional envFailAt1C10 sAbsent0Iso 0 MigrateType.MOVABLE false 1
    (fun i hi => by
      have h1 : i < 1 := hi
      have h0 : i = 0 := by omega
      subst h0
      rfl)
    (by rfl)
    (by simp +decide [__first_valid_page, pageblock_nr_pages, envFailAt1C10, sAbsent0Iso])
    (by rfl)

/-! ### Forward-loop (isolate) lemmas on the BUSY path -/

theorem isolate_loop_busy_no_iso (env : Env) (mt : MigrateType) (skip : Bool)
    (hmt : mt ≠ MigrateType.ISOLATE) :
    ∀ (n st q e : Nat) (s : MemState), e - q ≤ n → st ≤ q →
      (∀ b, q ≤ b → b < e → s.blockLabel b ≠ MigrateType.ISOLATE) →
      (isolate_loop env (pageblock_nr_pages env * st) mt skip s
          (pageblock_nr_pages env * q) (pageblock_nr_pages env * e)).1 = -EBUSY →
      ∀ b, st ≤ b → b < e →
        (isolate_loop env (pageblock_nr_pages env * st) mt skip s
            (pageblock_nr_pages env * q)
            (pageblock_nr_pages env * e)).2.blockLabel b ≠ MigrateType.ISOLATE := by
  intro n
  induction n with
  | zero =>
    intro st q e s hle hst hpre hbusy
    rw [isolate_loop_stop (by rw [block_mul_lt env]; omega)] at hbusy
    exact absurd hbusy (by
      show ¬ (0 : Int) = -EBUSY
      unfold EBUSY
      decide)
  | succ n ih =>
    intro st q e s hle hst hpre hbusy
    by_cases hqe : q < e
    · rw [isolate_loop, dif_pos ((block_mul_lt env).mpr hqe)] at hbusy ⊢
      cases hfv : __first_valid_page s (pageblock_nr_pages env * q)
          (pageblock_nr_pages env) with
      | none =>
        simp only [hfv] at hbusy ⊢
        rw [block_step env q] at hbusy ⊢
        exact ih st (q + 1) e s (by omega) (by omega)
          (fun b h1 h2 => hpre b (by omega) h2) hbusy
      | some p =>
        simp only [hfv] at hbusy ⊢
        by_cases hset : (set_migratetype_isolate_cma env s p skip).1 = 0
        · rw [if_pos hset] at hbusy ⊢
          rw [block_step env q] at hbusy ⊢
          have hum : env.hasUnmovable p skip = false := set_fst_eq_zero.mp hset
          have hdiv : p / pageblock_nr_pages env = q := by
            obtain ⟨h1, h2, _⟩ := first_valid_some hfv
            exact block_div_of_range env h1 h2
          refine ih st (q + 1) e _ (by omega) (by omega) ?_ hbusy
          intro b h1 h2
          rw [set_blockLabel hum, hdiv]
          rw [if_neg (by omega)]
          exact hpre b (by omega) h2
        · rw [if_neg hset] at hbusy ⊢
          intro b h1 h2
          show (isolate_undo_loop env mt (set_migratetype_isolate_cma env s p skip).2
            (pageblock_nr_pages env * st)
            (pageblock_nr_pages env * q)).blockLabel b ≠ MigrateType.ISOLATE
          rw [set_fail_state hset]
          by_cases hbq : b < q
          · exact isolate_undo_loop_clears env mt hmt (q - st) st q s b
              (le_refl _) h1 hbq
          · rw [isolate_undo_loop_outside env mt (q - st) st q s b (le_refl _)
              (by omega)]
            exact hpre b (by omega) h2
    · rw [isolate_loop_stop (by rw [block_mul_lt env]; omega)] at hbusy
      exact absurd hbusy (by
      show ¬ (0 : Int) = -EBUSY
      unfold EBUSY
      decide)

theorem isolate_loop_outside (env : Env) (mt : MigrateType) (skip : Bool) :
    ∀ (n st q e : Nat) (s : MemState) (b : Nat), e - q ≤ n → st ≤ q →
      (b < st ∨ e ≤ b) →
      (isolate_loop env (pageblock_nr_pages env * st) mt skip s
          (pageblock_nr_pages env * q)
          (pageblock_nr_pages env * e)).2.blockLabel b = s.blockLabel b := by
  intro n
  induction n with
  | zero =>
    intro st q e s b hle hst hout
    rw [isolate_loop_stop (by rw [block_mul_lt env]; omega)]
  | succ n ih =>
    intro st q e s b hle hst hout
    by_cases hqe : q < e
    · rw [isolate_loop, dif_pos ((block_mul_lt env).mpr hqe)]
      cases hfv : __first_valid_page s (pageblock_nr_pages env * q)
          (pageblock_nr_pages env) with
      | none =>
        simp only [hfv]
        rw [block_step env q]
        exact ih st (q + 1) e s b (by omega) (by omega) hout
      | some p =>
        simp only [hfv]
        by_cases hset : (set_migratetype_isolate_cma env s p skip).1 = 0
        · rw [if_pos hset]
          rw [block_step env q]
          have hum : env.hasUnmovable p skip = false := set_fst_eq_zero.mp hset
          have hdiv : p / pageblock_nr_pages env = q := by
            obtain ⟨h1, h2, _⟩ := first_valid_some hfv
            exact block_div_of_range env h1 h2
          rw [ih st (q + 1) e _ b (by omega) (by omega) hout]
          rw [set_blockLabel hum, hdiv]
          rw [if_neg (by omega)]
        · rw [if_neg hset]
          show (isolate_undo_loop env mt (set_migratetype_isolate_cma env s p skip).2
            (pageblock_nr_pages env * st)
            (pageblock_nr_pages env * q)).blockLabel b = s.blockLabel b
          rw [set_fail_state hset]
          exact isolate_undo_loop_outside env mt (q - st) st q s b (le_refl _)
            (by omega)
    · rw [isolate_loop_stop (by rw [block_mul_lt env]; omega)]

/-! ### Claim C1 -/

/-- C1 counterexample: pre-call, pageblock 0 is already labelled ISOLATE;
`isolate_range` over blocks 0 and 1 re-isolates block 0, fails at block 1,
and the rollback unsets block 0 to the undo migratetype, so after the BUSY
return the set of ISOLATE-labelled pageblocks has lost block 0 — it is not
equal to the pre-call set, contradicting the claim as stated. -/
theorem c1_counterexample :
    sIso0.blockLabel 0 = MigrateType.ISOLATE ∧
    (start_isolate_page_range_cma envFailAt1 sIso0 0 2 MigrateType.MOVABLE
        false).map (fun r => (r.1, r.2.blockLabel 0)) =
      some (-EBUSY, MigrateType.MOVABLE) := by
  refine ⟨rfl, ?_⟩
  simp +decide [start_isolate_page_range_cma, isolate_loop, isolate_undo_loop,
    __first_valid_page, set_migratetype_isolate_cma, unset_migratetype_isolate_cma,
    move_freepages_block, move_freepages, __mod_zone_freepage_state,
    pageblock_nr_pages, EBUSY, envFailAt1, sIso0]

/-- C1 (amended): when `isolate_range` on an aligned range returns BUSY, it
has rolled back with `unset_isolate` every pageblock from start up to the
failure point; provided the undo migratetype is not ISOLATE and no pageblock
of the range was labelled ISOLATE before the call, the set of
ISOLATE-labelled pageblocks after the BUSY return equals the pre-call set
(a pre-call ISOLATE label inside the rolled-back prefix would instead be
overwritten, and an ISOLATE undo migratetype would re-label rolled-back
blocks ISOLATE). -/
theorem c1_rollback_isolate_set (env : Env) (s : MemState) (q e : Nat)
    (mt : MigrateType) (skip : Bool) (r : Int × MemState)
    (hmt : mt ≠ MigrateType.ISOLATE)
    (hpre : ∀ b, q ≤ b → b < e → s.blockLabel b ≠ MigrateType.ISOLATE)
    (hrun : start_isolate_page_range_cma env s (pageblock_nr_pages env * q)
      (pageblock_nr_pages env * e) mt skip = some r)
    (hbusy : r.1 = -EBUSY) :
    ∀ b, (r.2.blockLabel b = MigrateType.ISOLATE ↔
      s.blockLabel b = MigrateType.ISOLATE) := by
  have hal : ∀ x : Nat, ¬ pageblock_nr_pages env * x &&&
      (pageblock_nr_pages env - 1) ≠ 0 :=
    fun x => not_not_intro (block_aligned_land env x)
  unfold start_isolate_page_range_cma at hrun
  rw [if_neg (hal q), if_neg (hal e)] at hrun
  have hr : isolate_loop env (pageblock_nr_pages env * q) mt skip s
      (pageblock_nr_pages env * q) (pageblock_nr_pages env * e) = r :=
    Option.some_injective _ hrun
  intro b
  by_cases hin : q ≤ b ∧ b < e
  · constructor
    · intro hcon
      exfalso
      refine isolate_loop_busy_no_iso env mt skip hmt (e - q) q q e s (le_refl _)
        (le_refl _) hpre ?_ b hin.1 hin.2 ?_
      · rw [hr]
        exact hbusy
      · rw [hr]
        exact hcon
    · intro hs
      exact absurd hs (hpre b hin.1 hin.2)
  · rw [← hr, isolate_loop_outside env mt skip (e - q) q q e s b (le_refl _)
      (le_refl _) (by omega)]

/-- Witness for C1 (amended) at a concrete input: two one-frame blocks, all
labels MOVABLE pre-call, failure at block 1; the ISOLATE set (empty) is
unchanged at block 0. -/
theorem c1_witness :
    (((start_isolate_page_range_cma envFailAt1 sMov2 0 2 MigrateType.MOVABLE
        false).getD (0, sMov2)).2.blockLabel 0 = MigrateType.ISOLATE ↔
      sMov2.blockLabel 0 = MigrateType.ISOLATE) := by
  have hrun : start_isolate_page_range_cma envFailAt1 sMov2
      (pageblock_nr_pages envFailAt1 * 0) (pageblock_nr_pages envFailAt1 * 2)
      MigrateType.MOVABLE false =
      some ((start_isolate_page_range_cma envFailAt1 sMov2 0 2
        MigrateType.MOVABLE false).getD (0, sMov2)) := by
    simp +decide [start_isolate_page_range_cma, isolate_loop, isolate_undo_loop,
      __first_valid_page, set_migratetype_isolate_cma, unset_migratetype_isolate_cma,
      move_freepages_block, move_freepages, __mod_zone_freepage_state,
      pageblock_nr_pages, EBUSY, envFailAt1, sMov2]
  exact c1_rollback_isolate_set envFailAt1 sMov2 0 2 MigrateType.MOVABLE false _
    (by decide)
    (fun b h1 h2 => by
      show MigrateType.MOVABLE ≠ MigrateType.ISOLATE
      decide)
    hrun
    (by simp +decide [start_isolate_page_range_cma, isolate_loop, isolate_undo_loop,
      __first_valid_page, set_migratetype_isolate_cma, unset_migratetype_isolate_cma,
      move_freepages_block, move_freepages, __mod_zone_freepage_state,
      pageblock_nr_pages, EBUSY, envFailAt1, sMov2])
    0

/-! ### undo_range loop lemmas -/

theorem undo_range_loop_valid (env : Env) (mt : MigrateType) :
    ∀ (n q e : Nat) (s : MemState), e - q ≤ n →
      (undo_range_loop env mt s (pageblock_nr_pages env * q)
          (pageblock_nr_pages env * e)).valid = s.valid := by
  intro n
  induction n with
  | zero =>
    intro q e s hle
    rw [undo_range_loop_stop (by rw [block_mul_lt env]; omega)]
  | succ n ih =>
    intro q e s hle
    by_cases hqe : q < e
    · rw [undo_range_loop, dif_pos ((block_mul_lt env).mpr hqe)]
      cases hfv : __first_valid_page s (pageblock_nr_pages env * q)
          (pageblock_nr_pages env) with
      | none =>
        simp only [hfv]
        rw [block_step env q]
        exact ih (q + 1) e s (by omega)
      | some p =>
        simp only [hfv]
        by_cases hlbl : s.blockLabel (p / pageblock_nr_pages env) =
            MigrateType.ISOLATE
        · rw [if_neg (not_not_intro hlbl)]
          rw [block_step env q]
          rw [ih (q + 1) e _ (by omega)]
          exact unset_valid env s p mt
        · rw [if_pos hlbl]
          rw [block_step env q]
          exact ih (q + 1) e s (by omega)
    · rw [undo_range_loop_stop (by rw [block_mul_lt env]; omega)]

theorem undo_range_loop_blockLabel (env : Env) (mt : MigrateType) :
    ∀ (n q e : Nat) (s : MemState) (b : Nat), e - q ≤ n →
      (undo_range_loop env mt s (pageblock_nr_pages env * q)
          (pageblock_nr_pages env * e)).blockLabel b =
        if q ≤ b ∧ b < e ∧
            (__first_valid_page s (pageblock_nr_pages env * b)
              (pageblock_nr_pages env)).isSome = true ∧
            s.blockLabel b = MigrateType.ISOLATE
        then mt else s.blockLabel b := by
  intro n
  induction n with
  | zero =>
    intro q e s b hle
    rw [undo_range_loop_stop (by rw [block_mul_lt env]; omega)]
    rw [if_neg (fun hc => absurd hc.1 (by omega))]
  | succ n ih =>
    intro q e s b hle
    by_cases hqe : q < e
    · rw [undo_range_loop, dif_pos ((block_mul_lt env).mpr hqe)]
      cases hfv : __first_valid_page s (pageblock_nr_pages env * q)
          (pageblock_nr_pages env) with
      | none =>
        simp only [hfv]
        rw [block_step env q]
        rw [ih (q + 1) e s b (by omega)]
        by_cases hb : b = q
        · subst hb
          rw [if_neg (fun hc => absurd hc.1 (by omega)),
            if_neg (fun hc => by
              rw [hfv] at hc
              simp at hc)]
        · by_cases hin : q ≤ b ∧ b < e ∧
              (__first_valid_page s (pageblock_nr_pages env * b)
                (pageblock_nr_pages env)).isSome = true ∧
              s.blockLabel b = MigrateType.ISOLATE
          · rw [if_pos ⟨by omega, hin.2⟩, if_pos hin]
          · rw [if_neg (fun hc => hin ⟨by omega, hc.2⟩), if_neg hin]
      | some p =>
        simp only [hfv]
        have hdiv : p / pageblock_nr_pages env = q := by
          obtain ⟨h1, h2, _⟩ := first_valid_some hfv
          exact block_div_of_range env h1 h2
        by_cases hlbl : s.blockLabel q = MigrateType.ISOLATE
        · rw [if_neg (by rw [hdiv]; exact not_not_intro hlbl)]
          rw [block_step env q]
          rw [ih (q + 1) e _ b (by omega)]
          have hval : (unset_migratetype_isolate_cma env s p mt).valid = s.valid :=
            unset_valid env s p mt
          have hfv2 : ∀ x, __first_valid_page
              (unset_migratetype_isolate_cma env s p mt) x
              (pageblock_nr_pages env) =
              __first_valid_page s x (pageblock_nr_pages env) :=
            fun x => first_valid_congr hval x (pageblock_nr_pages env)
          by_cases hb : b = q
          · subst hb
            have hlab : (unset_migratetype_isolate_cma env s p mt).blockLabel b
                = mt := by
              rw [unset_blockLabel, hdiv]
              exact if_pos ⟨hlbl, rfl⟩
            rw [hfv2, hlab]
            rw [if_neg (fun hc => absurd hc.1 (by omega))]
            rw [if_pos ⟨le_refl b, hqe, by rw [hfv]; rfl, hlbl⟩]
          · have hlab : (unset_migratetype_isolate_cma env s p mt).blockLabel b
                = s.blockLabel b := by
              rw [unset_blockLabel, hdiv]
              exact if_neg (fun hc => hb hc.2)
            rw [hfv2, hlab]
            by_cases hin : q ≤ b ∧ b < e ∧
                (__first_valid_page s (pageblock_nr_pages env * b)
                  (pageblock_nr_pages env)).isSome = true ∧
                s.blockLabel b = MigrateType.ISOLATE
            · rw [if_pos ⟨by omega, hin.2⟩, if_pos hin]
            · rw [if_neg (fun hc => hin ⟨by omega, hc.2⟩), if_neg hin]
        · rw [if_pos (by rw [hdiv]; exact hlbl)]
          rw [block_step env q]
          rw [ih (q + 1) e s b (by omega)]
          by_cases hb : b = q
          · subst hb
            rw [if_neg (fun hc => absurd hc.1 (by omega)),
              if_neg (fun hc => hlbl hc.2.2.2)]
          · by_cases hin : q ≤ b ∧ b < e ∧
                (__first_valid_page s (pageblock_nr_pages env * b)
                  (pageblock_nr_pages env)).isSome = true ∧
                s.blockLabel b = MigrateType.ISOLATE
            · rw [if_pos ⟨by omega, hin.2⟩, if_pos hin]
            · rw [if_neg (fun hc => hin ⟨by omega, hc.2⟩), if_neg hin]
    · rw [undo_range_loop_stop (by rw [block_mul_lt env]; omega)]
      rw [if_neg (fun hc => absurd hc.2.1 (by omega))]

theorem undo_range_loop_noop (env : Env) (mt : MigrateType) :
    ∀ (n q e : Nat) (s : MemState), e - q ≤ n →
      (∀ b, q ≤ b → b < e →
        __first_valid_page s (pageblock_nr_pages env * b)
          (pageblock_nr_pages env) = none ∨
        s.blockLabel b ≠ MigrateType.ISOLATE) →
      undo_range_loop env mt s (pageblock_nr_pages env * q)
        (pageblock_nr_pages env * e) = s := by
  intro n
  induction n with
  | zero =>
    intro q e s hle hclean
    rw [undo_range_loop_stop (by rw [block_mul_lt env]; omega)]
  | succ n ih =>
    intro q e s hle hclean
    by_cases hqe : q < e
    · rw [undo_range_loop, dif_pos ((block_mul_lt env).mpr hqe)]
      cases hfv : __first_valid_page s (pageblock_nr_pages env * q)
          (pageblock_nr_pages env) with
      | none =>
        simp only [hfv]
        rw [block_step env q]
        exact ih (q + 1) e s (by omega) (fun b h1 h2 => hclean b (by omega) h2)
      | some p =>
        simp only [hfv]
        have hdiv : p / pageblock_nr_pages env = q := by
          obtain ⟨h1, h2, _⟩ := first_valid_some hfv
          exact block_div_of_range env h1 h2
        have hlbl : s.blockLabel q ≠ MigrateType.ISOLATE := by
          rcases hclean q (le_refl q) hqe with h | h
          · rw [hfv] at h
            exact absurd h (by simp)
          · exact h
        rw [if_pos (by rw [hdiv]; exact hlbl)]
        rw [block_step env q]
        exact ih (q + 1) e s (by omega) (fun b h1 h2 => hclean b (by omega) h2)
    · rw [undo_range_loop_stop (by rw [block_mul_lt env]; omega)]

/-! ### Claim C6 -/

/-- C6 counterexample: with target migratetype ISOLATE, `undo_range` is not
idempotent: each application re-runs the free-list move on a still-ISOLATE
block and adds the moved count to the ISOLATE free-page counter again, so the
state after two applications (counter 2) differs from the state after one
(counter 1). -/
theorem c6_counterexample :
    (((undo_isolate_page_range_cma envB1 sBuddyIso 0 1
        MigrateType.ISOLATE).getD (0, sBuddyIso)).2.freeCount
      MigrateType.ISOLATE = 1) ∧
    (((undo_isolate_page_range_cma envB1
        ((undo_isolate_page_range_cma envB1 sBuddyIso 0 1
          MigrateType.ISOLATE).getD (0, sBuddyIso)).2 0 1
        MigrateType.ISOLATE).getD (0, sBuddyIso)).2.freeCount
      MigrateType.ISOLATE = 2) := by
  constructor <;>
    simp +decide [undo_isolate_page_range_cma, undo_range_loop,
      unset_migratetype_isolate_cma, move_freepages_block, move_freepages,
      __mod_zone_freepage_state, __first_valid_page, pageblock_nr_pages,
      EBUSY, envB1, sBuddyIso]

/-- C6 (amended): on an aligned range `undo_range` always returns 0; the
unset primitive is a no-op on a pageblock whose label is not currently
ISOLATE; and `undo_range` is idempotent provided the target migratetype is
not ISOLATE (with target ISOLATE a second application repeats the free-list
move and counter update on still-ISOLATE blocks). -/
theorem c6_undo_idempotent (env : Env) (s : MemState) (q e : Nat)
    (mt : MigrateType) :
    (∃ u, undo_isolate_page_range_cma env s (pageblock_nr_pages env * q)
        (pageblock_nr_pages env * e) mt = some (0, u)) ∧
    (∀ p, s.blockLabel (p / pageblock_nr_pages env) ≠ MigrateType.ISOLATE →
      unset_migratetype_isolate_cma env s p mt = s) ∧
    (mt ≠ MigrateType.ISOLATE → ∀ u,
      undo_isolate_page_range_cma env s (pageblock_nr_pages env * q)
        (pageblock_nr_pages env * e) mt = some (0, u) →
      undo_isolate_page_range_cma env u (pageblock_nr_pages env * q)
        (pageblock_nr_pages env * e) mt = some (0, u)) := by
  have hal : ∀ x : Nat, ¬ pageblock_nr_pages env * x &&&
      (pageblock_nr_pages env - 1) ≠ 0 :=
    fun x => not_not_intro (block_aligned_land env x)
  refine ⟨?_, ?_, ?_⟩
  · unfold undo_isolate_page_range_cma
    rw [if_neg (hal q), if_neg (hal e)]
    exact ⟨_, rfl⟩
  · intro p hp
    exact unset_noop hp
  · intro hmt u hu
    unfold undo_isolate_page_range_cma at hu ⊢
    rw [if_neg (hal q), if_neg (hal e)] at hu ⊢
    have hloop : undo_range_loop env mt s (pageblock_nr_pages env * q)
        (pageblock_nr_pages env * e) = u := by
      have h2 := Option.some_injective _ hu
      exact congrArg Prod.snd h2
    have hval : u.valid = s.valid := by
      rw [← hloop]
      exact undo_range_loop_valid env mt (e - q) q e s (le_refl _)
    rw [undo_range_loop_noop env mt (e - q) q e u (le_refl _) ?_]
    intro b h1 h2
    by_cases hfv : __first_valid_page s (pageblock_nr_pages env * b)
        (pageblock_nr_pages env) = none
    · left
      rw [first_valid_congr hval, hfv]
    · right
      rw [← hloop, undo_range_loop_blockLabel env mt (e - q) q e s b (le_refl _)]
      by_cases hin : q ≤ b ∧ b < e ∧
          (__first_valid_page s (pageblock_nr_pages env * b)
            (pageblock_nr_pages env)).isSome = true ∧
          s.blockLabel b = MigrateType.ISOLATE
      · rw [if_pos hin]
        exact hmt
      · rw [if_neg hin]
        intro hcon
        apply hin
        refine ⟨h1, h2, ?_, hcon⟩
        cases hx : __first_valid_page s (pageblock_nr_pages env * b)
            (pageblock_nr_pages env) with
        | none => exact absurd hx hfv
        | some z => rfl

/-- Witness for C6 (amended) at a concrete input: one ISOLATE-labelled block
with a buddy page; undo to MOVABLE applied twice returns the state of the
first application unchanged. -/
theorem c6_witness :
    undo_isolate_page_range_cma envB1
      ((undo_isolate_page_range_cma envB1 sBuddyIso 0 1
        MigrateType.MOVABLE).getD (0, sBuddyIso)).2 0 1 MigrateType.MOVABLE =
      some (0, ((undo_isolate_page_range_cma envB1 sBuddyIso 0 1
        MigrateType.MOVABLE).getD (0, sBuddyIso)).2) := by
  refine (c6_undo_idempotent envB1 sBuddyIso 0 1 MigrateType.MOVABLE).2.2
    (by decide) _ ?_
  simp +decide [undo_isolate_page_range_cma, undo_range_loop,
    unset_migratetype_isolate_cma, move_freepages_block, move_freepages,
    __mod_zone_freepage_state, __first_valid_page, pageblock_nr_pages,
    EBUSY, envB1, sBuddyIso]

/-! ### Claim C3 -/

/-- C3: one step of the content walk at a valid buddy-free frame: when the
freepage hint is not ISOLATE the walk continues on the state produced by
`move_freepages(zone, page, page + (1 << order) - 1, MIGRATE_ISOLATE)`, and
when the hint already is ISOLATE it continues on the unchanged state; in both
cases it advances by `2^order` and does not fail at this frame. -/
theorem c3_walk_buddy_step (s : MemState) (pfn end_pfn : Nat) (skip : Bool)
    (pfailed : Option Nat)
    (hlt : pfn < end_pfn) (hv : s.valid pfn = true)
    (hb : (s.pages pfn).isBuddy = true) :
    __test_page_isolated_in_pageblock_cma s pfn end_pfn skip pfailed =
      if (s.pages pfn).freepageMT ≠ MigrateType.ISOLATE then
        __test_page_isolated_in_pageblock_cma
          ((move_freepages s pfn (pfn + 2 ^ (s.pages pfn).order - 1)
            MigrateType.ISOLATE).2)
          (pfn + 2 ^ (s.pages pfn).order) end_pfn skip pfailed
      else
        __test_page_isolated_in_pageblock_cma s (pfn + 2 ^ (s.pages pfn).order)
          end_pfn skip pfailed := by
  rw [__test_page_isolated_in_pageblock_cma]
  rw [dif_pos hlt]
  rw [if_neg (by rw [hv]; simp)]
  rw [if_pos hb]
  by_cases hmt : (s.pages pfn).freepageMT ≠ MigrateType.ISOLATE
  · rw [if_pos hmt, if_pos hmt]
  · rw [if_neg hmt, if_neg hmt]

/-- Witness for C3 at a concrete input: frame 0 buddy-free of order 0 with a
MOVABLE hint. -/
theorem c3_witness :
    __test_page_isolated_in_pageblock_cma sBuddyIso 0 1 false none =
      if (sBuddyIso.pages 0).freepageMT ≠ MigrateType.ISOLATE then
        __test_page_isolated_in_pageblock_cma
          ((move_freepages sBuddyIso 0 (0 + 2 ^ (sBuddyIso.pages 0).order - 1)
            MigrateType.ISOLATE).2)
          (0 + 2 ^ (sBuddyIso.pages 0).order) 1 false none
      else
        __test_page_isolated_in_pageblock_cma sBuddyIso
          (0 + 2 ^ (sBuddyIso.pages 0).order) 1 false none :=
  c3_walk_buddy_step sBuddyIso 0 1 false none (by decide) rfl rfl

/-! ### Claim C4 -/

/-- C4 counterexample: a phase-1 failure (first pageblock labelled MOVABLE)
returns BUSY without writing the failed-pfn out-parameter, contradicting the
claim that every BUSY return reports the first offending frame there. -/
theorem c4_counterexample :
    (test_pages_isolated_cma envB1 sFree 0 1 false).1 = -EBUSY ∧
    (test_pages_isolated_cma envB1 sFree 0 1 false).2.2 = none := by
  constructor <;>
    simp +decide [test_pages_isolated_cma, test_phase1, __first_valid_page,
      __test_page_isolated_in_pageblock_cma, pageblock_nr_pages, EBUSY,
      envB1, sFree]

theorem walk_break_failed :
    ∀ (n pfn end_pfn : Nat) (s : MemState) (skip : Bool) (f0 : Option Nat),
      end_pfn - pfn ≤ n →
      (__test_page_isolated_in_pageblock_cma s pfn end_pfn skip f0).1 = 0 →
      ∃ f, (__test_page_isolated_in_pageblock_cma s pfn end_pfn skip f0).2.2 =
          some f ∧
        pfn ≤ f ∧ f < end_pfn ∧
        (__test_page_isolated_in_pageblock_cma s pfn end_pfn skip f0).2.1.valid f
          = true ∧
        ((__test_page_isolated_in_pageblock_cma s pfn end_pfn skip
          f0).2.1.pages f).isBuddy = false ∧
        ¬(((__test_page_isolated_in_pageblock_cma s pfn end_pfn skip
            f0).2.1.pages f).refcount = 0 ∧
          ((__test_page_isolated_in_pageblock_cma s pfn end_pfn skip
            f0).2.1.pages f).freepageMT = MigrateType.ISOLATE) ∧
        ¬(skip = true ∧ ((__test_page_isolated_in_pageblock_cma s pfn end_pfn
            skip f0).2.1.pages f).hwPoison = true) := by
  intro n
  induction n with
  | zero =>
    intro pfn e s skip f0 hle h0
    rw [__test_page_isolated_in_pageblock_cma, dif_neg (by omega)] at h0
    exact absurd h0 (by
      show ¬ (1 : Nat) = 0
      decide)
  | succ n ih =>
    intro pfn e s skip f0 hle h0
    by_cases hlt : pfn < e
    · rw [__test_page_isolated_in_pageblock_cma, dif_pos hlt] at h0 ⊢
      by_cases hv : s.valid pfn = false
      · rw [if_pos hv] at h0 ⊢
        obtain ⟨f, hf⟩ := ih (pfn + 1) e s skip f0 (by omega) h0
        exact ⟨f, hf.1, by omega, hf.2.2⟩
      · rw [if_neg hv] at h0 ⊢
        by_cases hb : (s.pages pfn).isBuddy = true
        · rw [if_pos hb] at h0 ⊢
          have hpos : 0 < 2 ^ (s.pages pfn).order :=
            Nat.two_pow_pos (s.pages pfn).order
          obtain ⟨f, hf⟩ := ih (pfn + 2 ^ (s.pages pfn).order) e _ skip f0
            (by omega) h0
          exact ⟨f, hf.1, by omega, hf.2.2⟩
        · rw [if_neg hb] at h0 ⊢
          by_cases hr : (s.pages pfn).refcount = 0 ∧
              (s.pages pfn).freepageMT = MigrateType.ISOLATE
          · rw [if_pos hr] at h0 ⊢
            obtain ⟨f, hf⟩ := ih (pfn + 1) e s skip f0 (by omega) h0
            exact ⟨f, hf.1, by omega, hf.2.2⟩
          · rw [if_neg hr] at h0 ⊢
            by_cases hp : skip = true ∧ (s.pages pfn).hwPoison = true
            · rw [if_pos hp] at h0 ⊢
              obtain ⟨f, hf⟩ := ih (pfn + 1) e s skip f0 (by omega) h0
              exact ⟨f, hf.1, by omega, hf.2.2⟩
            · rw [if_neg hp] at h0 ⊢
              refine ⟨pfn, rfl, le_refl _, hlt, ?_, ?_, hr, hp⟩
              · simpa using hv
              · simpa using hb
    · rw [__test_page_isolated_in_pageblock_cma, dif_neg hlt] at h0
      exact absurd h0 (by
        show ¬ (1 : Nat) = 0
        decide)

/-- C4 (amended): when `test_range` returns BUSY from the phase-2 content
walk (phase 1 passed and the range has a valid page), the failed-pfn
out-parameter is set to the frame at which the walk stopped, and that frame
fails all three acceptance tests (not buddy-free, not refcount-0 with
ISOLATE hint, not tolerated-poisoned); a phase-1 BUSY, by contrast, returns
without writing the out-parameter. -/
theorem c4_busy_failed_pfn (env : Env) (s : MemState) (start_pfn end_pfn : Nat)
    (skip : Bool)
    (hphase1 : ¬ test_phase1 env s start_pfn end_pfn < end_pfn)
    (hpage : ¬ __first_valid_page s start_pfn (end_pfn - start_pfn) = none)
    (hbusy : (test_pages_isolated_cma env s start_pfn end_pfn skip).1 = -EBUSY) :
    ∃ f, (test_pages_isolated_cma env s start_pfn end_pfn skip).2.2 = some f ∧
      start_pfn ≤ f ∧ f < end_pfn ∧
      (test_pages_isolated_cma env s start_pfn end_pfn skip).2.1.valid f = true ∧
      ((test_pages_isolated_cma env s start_pfn end_pfn skip).2.1.pages
        f).isBuddy = false ∧
      ¬(((test_pages_isolated_cma env s start_pfn end_pfn skip).2.1.pages
          f).refcount = 0 ∧
        ((test_pages_isolated_cma env s start_pfn end_pfn skip).2.1.pages
          f).freepageMT = MigrateType.ISOLATE) ∧
      ¬(skip = true ∧ ((test_pages_isolated_cma env s start_pfn end_pfn
          skip).2.1.pages f).hwPoison = true) := by
  have hcond : ¬(test_phase1 env s start_pfn end_pfn < end_pfn ∨
      __first_valid_page s start_pfn (end_pfn - start_pfn) = none) :=
    fun hc => hc.elim hphase1 hpage
  unfold test_pages_isolated_cma at hbusy ⊢
  rw [if_neg hcond] at hbusy ⊢
  have hw : (__test_page_isolated_in_pageblock_cma s start_pfn end_pfn skip
      none).1 = 0 := by
    by_cases h : (__test_page_isolated_in_pageblock_cma s start_pfn end_pfn skip
        none).1 ≠ 0
    · rw [if_pos h] at hbusy
      exact absurd hbusy (by
        show ¬ (0 : Int) = -EBUSY
        unfold EBUSY
        decide)
    · exact not_not.mp h
  exact walk_break_failed (end_pfn - start_pfn) start_pfn end_pfn s skip none
    (le_refl _) hw

/-- Witness for C4 (amended): one valid in-use frame in an ISOLATE block;
the walk stops at frame 0 and reports it. -/
theorem c4_witness :
    ∃ f, (test_pages_isolated_cma envB1 sBusy0 0 1 false).2.2 = some f ∧
      0 ≤ f ∧ f < 1 ∧
      (test_pages_isolated_cma envB1 sBusy0 0 1 false).2.1.valid f = true ∧
      ((test_pages_isolated_cma envB1 sBusy0 0 1 false).2.1.pages f).isBuddy
        = false ∧
      ¬(((test_pages_isolated_cma envB1 sBusy0 0 1 false).2.1.pages f).refcount
          = 0 ∧
        ((test_pages_isolated_cma envB1 sBusy0 0 1 false).2.1.pages
          f).freepageMT = MigrateType.ISOLATE) ∧
      ¬(false = true ∧ ((test_pages_isolated_cma envB1 sBusy0 0 1
          false).2.1.pages f).hwPoison = true) :=
  c4_busy_failed_pfn envB1 sBusy0 0 1 false
    (by simp +decide [test_phase1, __first_valid_page, pageblock_nr_pages,
      envB1, sBusy0])
    (by simp +decide [__first_valid_page, envB1, sBusy0])
    (by simp +decide [test_pages_isolated_cma, test_phase1, __first_valid_page,
      __test_page_isolated_in_pageblock_cma, pageblock_nr_pages, EBUSY,
      envB1, sBusy0])

/-! ### Claim C9 -/

theorem code_inj : ∀ a b : MigrateType,
    MigrateType.code a = MigrateType.code b ↔ a = b := by
  intro a b
  cases a <;> cases b <;> simp [MigrateType.code]

theorem legacy_equiv_aux :
    ∀ (n pfn end_pfn : Nat) (s : MemState) (f0 : Option Nat),
      end_pfn - pfn ≤ n →
      (∀ fn, s.valid fn = true → (s.pages fn).isBuddy = true →
        (s.pages fn).freepageMT = MigrateType.ISOLATE) →
      (∀ fn, s.valid fn = true → (s.pages fn).refcount = 0 →
        (s.pages fn).privateField = MigrateType.code ((s.pages fn).freepageMT)) →
      (__test_page_isolated_in_pageblock_cma s pfn end_pfn false f0).1 =
        __test_page_isolated_in_pageblock s pfn end_pfn ∧
      (__test_page_isolated_in_pageblock_cma s pfn end_pfn false f0).2.1 = s := by
  intro n
  induction n with
  | zero =>
    intro pfn e s f0 hle hb hpriv
    rw [__test_page_isolated_in_pageblock_cma, dif_neg (by omega),
      __test_page_isolated_in_pageblock, dif_neg (by omega)]
    exact ⟨rfl, rfl⟩
  | succ n ih =>
    intro pfn e s f0 hle hb hpriv
    by_cases hlt : pfn < e
    · rw [__test_page_isolated_in_pageblock_cma, dif_pos hlt,
        __test_page_isolated_in_pageblock, dif_pos hlt]
      by_cases hv : s.valid pfn = false
      · rw [if_pos hv, if_pos hv]
        exact ih (pfn + 1) e s f0 (by omega) hb hpriv
      · rw [if_neg hv, if_neg hv]
        have hvt : s.valid pfn = true := by simpa using hv
        by_cases hbd : (s.pages pfn).isBuddy = true
        · rw [if_pos hbd, if_pos hbd]
          rw [if_neg (not_not_intro (hb pfn hvt hbd))]
          have hpos : 0 < 2 ^ (s.pages pfn).order :=
            Nat.two_pow_pos (s.pages pfn).order
          exact ih (pfn + 2 ^ (s.pages pfn).order) e s f0 (by omega) hb hpriv
        · rw [if_neg hbd, if_neg hbd]
          by_cases hr0 : (s.pages pfn).refcount = 0
          · by_cases hiso : (s.pages pfn).freepageMT = MigrateType.ISOLATE
            · rw [if_pos ⟨hr0, hiso⟩, if_pos ⟨hr0, by
                rw [hpriv pfn hvt hr0, hiso]⟩]
              exact ih (pfn + 1) e s f0 (by omega) hb hpriv
            · rw [if_neg (fun hc => hiso hc.2)]
              rw [if_neg (fun hc : false = true ∧ _ => by simp at hc)]
              rw [if_neg (fun hc => hiso ((code_inj _ _).mp
                (by rw [← hpriv pfn hvt hr0]; exact hc.2)))]
              exact ⟨rfl, rfl⟩
          · rw [if_neg (fun hc => hr0 hc.1)]
            rw [if_neg (fun hc : false = true ∧ _ => by simp at hc)]
            rw [if_neg (fun hc => hr0 hc.1)]
            exact ⟨rfl, rfl⟩
    · rw [__test_page_isolated_in_pageblock_cma, dif_neg hlt,
        __test_page_isolated_in_pageblock, dif_neg hlt]
      exact ⟨rfl, rfl⟩

/-- C9: the legacy verifier performs no repair and mutates no state (it is a
pure predicate in this embedding), reading the raw private word where the
repairing verifier reads the freepage-migratetype accessor; on any state with
no hardware-poisoned valid page, no buddy page with a non-ISOLATE hint, and
every valid refcount-0 page having its private word equal to the numeric
code of its freepage migratetype, the repairing verifier with skip-poisoned
false returns the same verdict as the legacy verifier (and leaves the state
unchanged). -/
theorem c9_legacy_equiv (s : MemState) (pfn end_pfn : Nat) (f0 : Option Nat)
    (hb : ∀ fn, s.valid fn = true → (s.pages fn).isBuddy = true →
      (s.pages fn).freepageMT = MigrateType.ISOLATE)
    (hpriv : ∀ fn, s.valid fn = true → (s.pages fn).refcount = 0 →
      (s.pages fn).privateField = MigrateType.code ((s.pages fn).freepageMT))
    (_hpois : ∀ fn, s.valid fn = true → (s.pages fn).hwPoison = false) :
    (__test_page_isolated_in_pageblock_cma s pfn end_pfn false f0).1 =
      __test_page_isolated_in_pageblock s pfn end_pfn ∧
    (__test_page_isolated_in_pageblock_cma s pfn end_pfn false f0).2.1 = s :=
  legacy_equiv_aux (end_pfn - pfn) pfn end_pfn s f0 (le_refl _) hb hpriv

/-- Witness for C9 at a concrete input: a buddy-free ISOLATE-hinted frame
whose private word carries the ISOLATE code. -/
theorem c9_witness :
    (__test_page_isolated_in_pageblock_cma sIsoOk 0 2 false none).1 =
      __test_page_isolated_in_pageblock sIsoOk 0 2 ∧
    (__test_page_isolated_in_pageblock_cma sIsoOk 0 2 false none).2.1 = sIsoOk :=
  c9_legacy_equiv sIsoOk 0 2 none
    (fun _ _ _ => rfl)
    (fun _ _ _ => rfl)
    (fun _ _ => rfl)

/-! ### Content-walk invariants for Claim C2 -/

theorem walk_valid_aux :
    ∀ (n pfn end_pfn : Nat) (s : MemState) (skip : Bool) (f0 : Option Nat),
      end_pfn - pfn ≤ n →
      (__test_page_isolated_in_pageblock_cma s pfn end_pfn skip f0).2.1.valid =
        s.valid := by
  intro n
  induction n with
  | zero =>
    intro pfn e s skip f0 hle
    rw [__test_page_isolated_in_pageblock_cma, dif_neg (by omega)]
  | succ n ih =>
    intro pfn e s skip f0 hle
    by_cases hlt : pfn < e
    · rw [__test_page_isolated_in_pageblock_cma, dif_pos hlt]
      by_cases hv : s.valid pfn = false
      · rw [if_pos hv]
        exact ih (pfn + 1) e s skip f0 (by omega)
      · rw [if_neg hv]
        by_cases hb : (s.pages pfn).isBuddy = true
        · rw [if_pos hb]
          have hpos : 0 < 2 ^ (s.pages pfn).order :=
            Nat.two_pow_pos (s.pages pfn).order
          by_cases hmt : (s.pages pfn).freepageMT ≠ MigrateType.ISOLATE
          · rw [if_pos hmt]
            rw [ih (pfn + 2 ^ (s.pages pfn).order) e _ skip f0 (by omega)]
            exact move_freepages_valid s pfn _ MigrateType.ISOLATE
          · rw [if_neg hmt]
            exact ih (pfn + 2 ^ (s.pages pfn).order) e s skip f0 (by omega)
        · rw [if_neg hb]
          by_cases hr : (s.pages pfn).refcount = 0 ∧
              (s.pages pfn).freepageMT = MigrateType.ISOLATE
          · rw [if_pos hr]
            exact ih (pfn + 1) e s skip f0 (by omega)
          · rw [if_neg hr]
            by_cases hp : skip = true ∧ (s.pages pfn).hwPoison = true
            · rw [if_pos hp]
              exact ih (pfn + 1) e s skip f0 (by omega)
            · rw [if_neg hp]
    · rw [__test_page_isolated_in_pageblock_cma, dif_neg hlt]

theorem walk_pages_lt_aux :
    ∀ (n pfn end_pfn : Nat) (s : MemState) (skip : Bool) (f0 : Option Nat)
      (fn : Nat), end_pfn - pfn ≤ n → fn < pfn →
      (__test_page_isolated_in_pageblock_cma s pfn end_pfn skip f0).2.1.pages fn
        = s.pages fn := by
  intro n
  induction n with
  | zero =>
    intro pfn e s skip f0 fn hle hfn
    rw [__test_page_isolated_in_pageblock_cma, dif_neg (by omega)]
  | succ n ih =>
    intro pfn e s skip f0 fn hle hfn
    by_cases hlt : pfn < e
    · rw [__test_page_isolated_in_pageblock_cma, dif_pos hlt]
      by_cases hv : s.valid pfn = false
      · rw [if_pos hv]
        exact ih (pfn + 1) e s skip f0 fn (by omega) (by omega)
      · rw [if_neg hv]
        by_cases hb : (s.pages pfn).isBuddy = true
        · rw [if_pos hb]
          have hpos : 0 < 2 ^ (s.pages pfn).order :=
            Nat.two_pow_pos (s.pages pfn).order
          by_cases hmt : (s.pages pfn).freepageMT ≠ MigrateType.ISOLATE
          · rw [if_pos hmt]
            rw [ih (pfn + 2 ^ (s.pages pfn).order) e _ skip f0 fn (by omega)
              (by omega)]
            exact move_freepages_pages_lt MigrateType.ISOLATE hfn
          · rw [if_neg hmt]
            exact ih (pfn + 2 ^ (s.pages pfn).order) e s skip f0 fn (by omega)
              (by omega)
        · rw [if_neg hb]
          by_cases hr : (s.pages pfn).refcount = 0 ∧
              (s.pages pfn).freepageMT = MigrateType.ISOLATE
          · rw [if_pos hr]
            exact ih (pfn + 1) e s skip f0 fn (by omega) (by omega)
          · rw [if_neg hr]
            by_cases hp : skip = true ∧ (s.pages pfn).hwPoison = true
            · rw [if_pos hp]
              exact ih (pfn + 1) e s skip f0 fn (by omega) (by omega)
            · rw [if_neg hp]
    · rw [__test_page_isolated_in_pageblock_cma, dif_neg hlt]

theorem walk_ret_cases :
    ∀ (n pfn end_pfn : Nat) (s : MemState) (skip : Bool) (f0 : Option Nat),
      end_pfn - pfn ≤ n →
      (__test_page_isolated_in_pageblock_cma s pfn end_pfn skip f0).1 = 0 ∨
      (__test_page_isolated_in_pageblock_cma s pfn end_pfn skip f0).1 = 1 := by
  intro n
  induction n with
  | zero =>
    intro pfn e s skip f0 hle
    rw [__test_page_isolated_in_pageblock_cma, dif_neg (by omega)]
    exact Or.inr rfl
  | succ n ih =>
    intro pfn e s skip f0 hle
    by_cases hlt : pfn < e
    · rw [__test_page_isolated_in_pageblock_cma, dif_pos hlt]
      by_cases hv : s.valid pfn = false
      · rw [if_pos hv]
        exact ih (pfn + 1) e s skip f0 (by omega)
      · rw [if_neg hv]
        by_cases hb : (s.pages pfn).isBuddy = true
        · rw [if_pos hb]
          have hpos : 0 < 2 ^ (s.pages pfn).order :=
            Nat.two_pow_pos (s.pages pfn).order
          exact ih (pfn + 2 ^ (s.pages pfn).order) e _ skip f0 (by omega)
        · rw [if_neg hb]
          by_cases hr : (s.pages pfn).refcount = 0 ∧
              (s.pages pfn).freepageMT = MigrateType.ISOLATE
          · rw [if_pos hr]
            exact ih (pfn + 1) e s skip f0 (by omega)
          · rw [if_neg hr]
            by_cases hp : skip = true ∧ (s.pages pfn).hwPoison = true
            · rw [if_pos hp]
              exact ih (pfn + 1) e s skip f0 (by omega)
            · rw [if_neg hp]
              exact Or.inl rfl
    · rw [__test_page_isolated_in_pageblock_cma, dif_neg hlt]
      exact Or.inr rfl

theorem walk_ok_aux :
    ∀ (n pfn end_pfn : Nat) (s : MemState) (skip : Bool) (f0 : Option Nat),
      end_pfn - pfn ≤ n →
      (__test_page_isolated_in_pageblock_cma s pfn end_pfn skip f0).1 = 1 →
      ∀ fn, pfn ≤ fn → fn < end_pfn → s.valid fn = true →
        frame_isolated_ok
          (__test_page_isolated_in_pageblock_cma s pfn end_pfn skip f0).2.1
          skip fn := by
  intro n
  induction n with
  | zero =>
    intro pfn e s skip f0 hle h1 fn hf1 hf2 hval
    omega
  | succ n ih =>
    intro pfn e s skip f0 hle h1 fn hf1 hf2 hval
    by_cases hlt : pfn < e
    · rw [__test_page_isolated_in_pageblock_cma, dif_pos hlt] at h1 ⊢
      by_cases hv : s.valid pfn = false
      · rw [if_pos hv] at h1 ⊢
        have hne : fn ≠ pfn := fun hc => by
          rw [hc] at hval
          rw [hval] at hv
          exact absurd hv (by decide)
        exact ih (pfn + 1) e s skip f0 (by omega) h1 fn (by omega) hf2 hval
      · rw [if_neg hv] at h1 ⊢
        have hvt : s.valid pfn = true := by simpa using hv
        by_cases hb : (s.pages pfn).isBuddy = true
        · rw [if_pos hb] at h1 ⊢
          have hpos : 0 < 2 ^ (s.pages pfn).order :=
            Nat.two_pow_pos (s.pages pfn).order
          by_cases hmt : (s.pages pfn).freepageMT ≠ MigrateType.ISOLATE
          · rw [if_pos hmt] at h1 ⊢
            by_cases hcov : fn < pfn + 2 ^ (s.pages pfn).order
            · left
              refine ⟨pfn, hf1, ?_, ?_, ?_, ?_⟩
              · rw [walk_valid_aux n (pfn + 2 ^ (s.pages pfn).order) e _ skip f0
                  (by omega)]
                rw [move_freepages_valid]
                exact hvt
              · rw [walk_pages_lt_aux n (pfn + 2 ^ (s.pages pfn).order) e _ skip
                  f0 pfn (by omega) (by omega)]
                rw [move_freepages_isBuddy]
                exact hb
              · rw [walk_pages_lt_aux n (pfn + 2 ^ (s.pages pfn).order) e _ skip
                  f0 pfn (by omega) (by omega)]
                rw [move_freepages_order]
                exact hcov
              · rw [walk_pages_lt_aux n (pfn + 2 ^ (s.pages pfn).order) e _ skip
                  f0 pfn (by omega) (by omega)]
                rw [move_freepages_pages]
                rw [if_pos ⟨le_refl pfn, by omega, hvt, hb⟩]
            · exact ih (pfn + 2 ^ (s.pages pfn).order) e _ skip f0 (by omega) h1
                fn (by omega) hf2 (by
                  rw [move_freepages_valid]
                  exact hval)
          · rw [if_neg hmt] at h1 ⊢
            have hmt2 : (s.pages pfn).freepageMT = MigrateType.ISOLATE :=
              not_not.mp hmt
            by_cases hcov : fn < pfn + 2 ^ (s.pages pfn).order
            · left
              refine ⟨pfn, hf1, ?_, ?_, ?_, ?_⟩
              · rw [walk_valid_aux n (pfn + 2 ^ (s.pages pfn).order) e s skip f0
                  (by omega)]
                exact hvt
              · rw [walk_pages_lt_aux n (pfn + 2 ^ (s.pages pfn).order) e s skip
                  f0 pfn (by omega) (by omega)]
                exact hb
              · rw [walk_pages_lt_aux n (pfn + 2 ^ (s.pages pfn).order) e s skip
                  f0 pfn (by omega) (by omega)]
                exact hcov
              · rw [walk_pages_lt_aux n (pfn + 2 ^ (s.pages pfn).order) e s skip
                  f0 pfn (by omega) (by omega)]
                exact hmt2
            · exact ih (pfn + 2 ^ (s.pages pfn).order) e s skip f0 (by omega) h1
                fn (by omega) hf2 hval
        · rw [if_neg hb] at h1 ⊢
          by_cases hr : (s.pages pfn).refcount = 0 ∧
              (s.pages pfn).freepageMT = MigrateType.ISOLATE
          · rw [if_pos hr] at h1 ⊢
            by_cases hfp : fn = pfn
            · subst hfp
              right
              left
              rw [walk_pages_lt_aux n (fn + 1) e s skip f0 fn (by omega)
                (by omega)]
              exact hr
            · exact ih (pfn + 1) e s skip f0 (by omega) h1 fn (by omega) hf2 hval
          · rw [if_neg hr] at h1 ⊢
            by_cases hp : skip = true ∧ (s.pages pfn).hwPoison = true
            · rw [if_pos hp] at h1 ⊢
              by_cases hfp : fn = pfn
              · subst hfp
                right
                right
                rw [walk_pages_lt_aux n (fn + 1) e s skip f0 fn (by omega)
                  (by omega)]
                exact hp
              · exact ih (pfn + 1) e s skip f0 (by omega) h1 fn (by omega) hf2
                  hval
            · rw [if_neg hp] at h1
              exact absurd h1 (by
                show ¬ (0 : Nat) = 1
                decide)
    · omega

/-! ### Claim C2 -/

/-- C2: when `test_range` returns 0, every valid frame of the range is, in
the final state (after any mid-walk repairs), either inside a buddy-free
extent whose head hint is ISOLATE, or refcount-0 with hint ISOLATE, or
(when skip-poisoned is set) hardware-poisoned. -/
theorem c2_test_zero_frames_ok (env : Env) (s : MemState)
    (start_pfn end_pfn : Nat) (skip : Bool)
    (h0 : (test_pages_isolated_cma env s start_pfn end_pfn skip).1 = 0) :
    ∀ fn, start_pfn ≤ fn → fn < end_pfn →
      (test_pages_isolated_cma env s start_pfn end_pfn skip).2.1.valid fn
        = true →
      frame_isolated_ok
        (test_pages_isolated_cma env s start_pfn end_pfn skip).2.1 skip fn := by
  unfold test_pages_isolated_cma at h0 ⊢
  by_cases hc : test_phase1 env s start_pfn end_pfn < end_pfn ∨
      __first_valid_page s start_pfn (end_pfn - start_pfn) = none
  · rw [if_pos hc] at h0
    exact absurd h0 (by
      show ¬ (-EBUSY : Int) = 0
      unfold EBUSY
      decide)
  · rw [if_neg hc] at h0 ⊢
    have hw1 : (__test_page_isolated_in_pageblock_cma s start_pfn end_pfn skip
        none).1 = 1 := by
      rcases walk_ret_cases (end_pfn - start_pfn) start_pfn end_pfn s skip none
          (le_refl _) with h | h
      · rw [if_neg (not_not_intro h)] at h0
        exact absurd h0 (by
          show ¬ (-EBUSY : Int) = 0
          unfold EBUSY
          decide)
      · exact h
    intro fn h1 h2 hval
    have hvs : s.valid fn = true := by
      rw [show ((if (__test_page_isolated_in_pageblock_cma s start_pfn end_pfn
            skip none).1 ≠ 0 then (0 : Int) else -EBUSY),
          (__test_page_isolated_in_pageblock_cma s start_pfn end_pfn skip
            none).2.1,
          (__test_page_isolated_in_pageblock_cma s start_pfn end_pfn skip
            none).2.2).2.1 =
          (__test_page_isolated_in_pageblock_cma s start_pfn end_pfn skip
            none).2.1 from rfl] at hval
      rw [walk_valid_aux (end_pfn - start_pfn) start_pfn end_pfn s skip none
        (le_refl _)] at hval
      exact hval
    exact walk_ok_aux (end_pfn - start_pfn) start_pfn end_pfn s skip none
      (le_refl _) hw1 fn h1 h2 hvs

/-- Witness for C2 at a concrete input: one valid buddy-free ISOLATE-hinted
frame in an ISOLATE block; the test returns 0 and frame 0 satisfies the
acceptance predicate. -/
theorem c2_witness :
    frame_isolated_ok
      (test_pages_isolated_cma envB1 sIsoOk 0 1 false).2.1 false 0 :=
  c2_test_zero_frames_ok envB1 sIsoOk 0 1 false
    (by simp +decide [test_pages_isolated_cma, test_phase1, __first_valid_page,
      __test_page_isolated_in_pageblock_cma, move_freepages,
      pageblock_nr_pages, EBUSY, envB1, sIsoOk])
    0 (le_refl 0) (by decide)
    (by simp +decide [test_pages_isolated_cma, test_phase1, __first_valid_page,
      __test_page_isolated_in_pageblock_cma, move_freepages,
      pageblock_nr_pages, EBUSY, envB1, sIsoOk])

/-! ### Round-trip support lemmas (Claim C7) -/

theorem unset_isBuddy (env : Env) (s : MemState) (p : Nat) (mt : MigrateType)
    (fn : Nat) :
    ((unset_migratetype_isolate_cma env s p mt).pages fn).isBuddy =
      (s.pages fn).isBuddy := by
  rw [unset_pages]
  split
  · show (((move_freepages s _ _ mt).2).pages fn).isBuddy = _
    rw [move_freepages_isBuddy]
  · rfl

theorem undo_range_loop_pages_lt (env : Env) (mt : MigrateType) :
    ∀ (n q e : Nat) (s : MemState) (fn : Nat), e - q ≤ n →
      fn < pageblock_nr_pages env * q →
      (undo_range_loop env mt s (pageblock_nr_pages env * q)
          (pageblock_nr_pages env * e)).pages fn = s.pages fn := by
  intro n
  induction n with
  | zero =>
    intro q e s fn hle hfn
    rw [undo_range_loop_stop (by rw [block_mul_lt env]; omega)]
  | succ n ih =>
    intro q e s fn hle hfn
    by_cases hqe : q < e
    · rw [undo_range_loop, dif_pos ((block_mul_lt env).mpr hqe)]
      have hstep : fn < pageblock_nr_pages env * (q + 1) := by
        rw [← block_step env q]
        have := pageblock_pos env
        omega
      cases hfv : __first_valid_page s (pageblock_nr_pages env * q)
          (pageblock_nr_pages env) with
      | none =>
        simp only [hfv]
        rw [block_step env q]
        exact ih (q + 1) e s fn (by omega) hstep
      | some p =>
        simp only [hfv]
        have hdiv : p / pageblock_nr_pages env = q := by
          obtain ⟨h1, h2, _⟩ := first_valid_some hfv
          exact block_div_of_range env h1 h2
        by_cases hlbl : s.blockLabel q = MigrateType.ISOLATE
        · rw [if_neg (by rw [hdiv]; exact not_not_intro hlbl)]
          rw [block_step env q]
          rw [ih (q + 1) e _ fn (by omega) hstep]
          rw [unset_pages, if_pos (by rw [hdiv]; exact hlbl)]
          show ((move_freepages s _ _ mt).2).pages fn = s.pages fn
          apply move_freepages_pages_lt
          rw [hdiv, Nat.mul_comm]
          exact hfn
        · rw [if_pos (by rw [hdiv]; exact hlbl)]
          rw [block_step env q]
          exact ih (q + 1) e s fn (by omega) hstep
    · rw [undo_range_loop_stop (by rw [block_mul_lt env]; omega)]

theorem undo_range_loop_isBuddy (env : Env) (mt : MigrateType) :
    ∀ (n q e : Nat) (s : MemState) (fn : Nat), e - q ≤ n →
      ((undo_range_loop env mt s (pageblock_nr_pages env * q)
          (pageblock_nr_pages env * e)).pages fn).isBuddy =
        (s.pages fn).isBuddy := by
  intro n
  induction n with
  | zero =>
    intro q e s fn hle
    rw [undo_range_loop_stop (by rw [block_mul_lt env]; omega)]
  | succ n ih =>
    intro q e s fn hle
    by_cases hqe : q < e
    · rw [undo_range_loop, dif_pos ((block_mul_lt env).mpr hqe)]
      cases hfv : __first_valid_page s (pageblock_nr_pages env * q)
          (pageblock_nr_pages env) with
      | none =>
        simp only [hfv]
        rw [block_step env q]
        exact ih (q + 1) e s fn (by omega)
      | some p =>
        simp only [hfv]
        by_cases hg : s.blockLabel (p / pageblock_nr_pages env) =
            MigrateType.ISOLATE
        · rw [if_neg (not_not_intro hg)]
          rw [block_step env q]
          rw [ih (q + 1) e _ fn (by omega)]
          exact unset_isBuddy env s p mt fn
        · rw [if_pos hg]
          rw [block_step env q]
          exact ih (q + 1) e s fn (by omega)
    · rw [undo_range_loop_stop (by rw [block_mul_lt env]; omega)]

theorem undo_range_loop_hints (env : Env) (M : MigrateType) :
    ∀ (n q e : Nat) (s : MemState), e - q ≤ n →
      (∀ b, q ≤ b → b < e →
        (__first_valid_page s (pageblock_nr_pages env * b)
          (pageblock_nr_pages env)).isSome = true ∧
        s.blockLabel b = MigrateType.ISOLATE) →
      ∀ fn, pageblock_nr_pages env * q ≤ fn → fn < pageblock_nr_pages env * e →
        s.valid fn = true → (s.pages fn).isBuddy = true →
        ((undo_range_loop env M s (pageblock_nr_pages env * q)
            (pageblock_nr_pages env * e)).pages fn).freepageMT = M := by
  intro n
  induction n with
  | zero =>
    intro q e s hle hpre fn hf1 hf2 hval hbud
    exfalso
    have : pageblock_nr_pages env * e ≤ pageblock_nr_pages env * q :=
      Nat.mul_le_mul_left _ (by omega)
    omega
  | succ n ih =>
    intro q e s hle hpre fn hf1 hf2 hval hbud
    by_cases hqe : q < e
    · rw [undo_range_loop, dif_pos ((block_mul_lt env).mpr hqe)]
      obtain ⟨hsome, hiso⟩ := hpre q (le_refl q) hqe
      cases hfv : __first_valid_page s (pageblock_nr_pages env * q)
          (pageblock_nr_pages env) with
      | none =>
        rw [hfv] at hsome
        exact absurd hsome (by decide)
      | some p =>
        simp only [hfv]
        have hdiv : p / pageblock_nr_pages env = q := by
          obtain ⟨h1, h2, _⟩ := first_valid_some hfv
          exact block_div_of_range env h1 h2
        rw [if_neg (by rw [hdiv]; exact not_not_intro hiso)]
        rw [block_step env q]
        have hval2 : (unset_migratetype_isolate_cma env s p M).valid = s.valid :=
          unset_valid env s p M
        by_cases hcov : fn < pageblock_nr_pages env * (q + 1)
        · rw [undo_range_loop_pages_lt env M n (q + 1) e _ fn (by omega) hcov]
          rw [unset_pages, if_pos (by rw [hdiv]; exact hiso)]
          show (((move_freepages s _ _ M).2).pages fn).freepageMT = M
          rw [move_freepages_pages]
          rw [if_pos ?_]
          refine ⟨?_, ?_, hval, hbud⟩
          · rw [hdiv, Nat.mul_comm]
            exact hf1
          · rw [hdiv, Nat.mul_comm]
            rw [← block_step env q] at hcov
            have := pageblock_pos env
            omega
        · refine ih (q + 1) e _ (by omega) ?_ fn (by omega) hf2 ?_ ?_
          · intro b h1 h2
            constructor
            · rw [first_valid_congr hval2]
              exact (hpre b (by omega) h2).1
            · have hlab : (unset_migratetype_isolate_cma env s p M).blockLabel b
                  = s.blockLabel b := by
                rw [unset_blockLabel, hdiv]
                exact if_neg (fun hc => by omega)
              rw [hlab]
              exact (hpre b (by omega) h2).2
          · rw [hval2]
            exact hval
          · rw [unset_isBuddy]
            exact hbud
    · exfalso
      have : pageblock_nr_pages env * e ≤ pageblock_nr_pages env * q :=
        Nat.mul_le_mul_left _ (by omega)
      omega

/-! ### isolate_loop success-path lemmas (Claim C7) -/

theorem isolate_loop_zero_valid (env : Env) (st : Nat) (mt : MigrateType)
    (skip : Bool) :
    ∀ (n q e : Nat) (s s1 : MemState), e - q ≤ n →
      isolate_loop env st mt skip s (pageblock_nr_pages env * q)
        (pageblock_nr_pages env * e) = (0, s1) →
      s1.valid = s.valid := by
  intro n
  induction n with
  | zero =>
    intro q e s s1 hle h
    rw [isolate_loop_stop (by rw [block_mul_lt env]; omega)] at h
    have h2 : s = s1 := congrArg Prod.snd h
    rw [← h2]
  | succ n ih =>
    intro q e s s1 hle h
    by_cases hqe : q < e
    · rw [isolate_loop, dif_pos ((block_mul_lt env).mpr hqe)] at h
      cases hfv : __first_valid_page s (pageblock_nr_pages env * q)
          (pageblock_nr_pages env) with
      | none =>
        simp only [hfv] at h
        rw [block_step env q] at h
        exact ih (q + 1) e s s1 (by omega) h
      | some p =>
        simp only [hfv] at h
        by_cases hset : (set_migratetype_isolate_cma env s p skip).1 = 0
        · rw [if_pos hset] at h
          rw [block_step env q] at h
          rw [ih (q + 1) e _ s1 (by omega) h]
          exact set_valid env s p skip
        · rw [if_neg hset] at h
          have := congrArg Prod.fst h
          exact absurd this (by
            show ¬ (-EBUSY, _).1 = (0, s1).1
            show ¬ (-EBUSY : Int) = 0
            unfold EBUSY
            decide)
    · rw [isolate_loop_stop (by rw [block_mul_lt env]; omega)] at h
      have h2x : s = s1 := congrArg Prod.snd h
      rw [← h2x]

theorem isolate_loop_zero_label_lt (env : Env) (st : Nat) (mt : MigrateType)
    (skip : Bool) :
    ∀ (n q e : Nat) (s s1 : MemState) (b : Nat), e - q ≤ n →
      isolate_loop env st mt skip s (pageblock_nr_pages env * q)
        (pageblock_nr_pages env * e) = (0, s1) →
      b < q → s1.blockLabel b = s.blockLabel b := by
  intro n
  induction n with
  | zero =>
    intro q e s s1 b hle h hb
    rw [isolate_loop_stop (by rw [block_mul_lt env]; omega)] at h
    have h2 : s = s1 := congrArg Prod.snd h
    rw [← h2]
  | succ n ih =>
    intro q e s s1 b hle h hb
    by_cases hqe : q < e
    · rw [isolate_loop, dif_pos ((block_mul_lt env).mpr hqe)] at h
      cases hfv : __first_valid_page s (pageblock_nr_pages env * q)
          (pageblock_nr_pages env) with
      | none =>
        simp only [hfv] at h
        rw [block_step env q] at h
        exact ih (q + 1) e s s1 b (by omega) h (by omega)
      | some p =>
        simp only [hfv] at h
        by_cases hset : (set_migratetype_isolate_cma env s p skip).1 = 0
        · rw [if_pos hset] at h
          rw [block_step env q] at h
          have hum : env.hasUnmovable p skip = false := set_fst_eq_zero.mp hset
          have hdiv : p / pageblock_nr_pages env = q := by
            obtain ⟨h1, h2, _⟩ := first_valid_some hfv
            exact block_div_of_range env h1 h2
          rw [ih (q + 1) e _ s1 b (by omega) h (by omega)]
          rw [set_blockLabel hum, hdiv]
          rw [if_neg (by omega)]
        · rw [if_neg hset] at h
          have := congrArg Prod.fst h
          exact absurd this (by
            show ¬ (-EBUSY : Int) = 0
            unfold EBUSY
            decide)
    · rw [isolate_loop_stop (by rw [block_mul_lt env]; omega)] at h
      have h2x : s = s1 := congrArg Prod.snd h
      rw [← h2x]

theorem isolate_loop_zero_label (env : Env) (st : Nat) (mt : MigrateType)
    (skip : Bool) :
    ∀ (n q e : Nat) (s s1 : MemState), e - q ≤ n →
      isolate_loop env st mt skip s (pageblock_nr_pages env * q)
        (pageblock_nr_pages env * e) = (0, s1) →
      ∀ b, q ≤ b → b < e →
        (__first_valid_page s (pageblock_nr_pages env * b)
          (pageblock_nr_pages env)).isSome = true →
        s1.blockLabel b = MigrateType.ISOLATE := by
  intro n
  induction n with
  | zero =>
    intro q e s s1 hle h b h1 h2 h3
    omega
  | succ n ih =>
    intro q e s s1 hle h b h1 h2 h3
    by_cases hqe : q < e
    · rw [isolate_loop, dif_pos ((block_mul_lt env).mpr hqe)] at h
      cases hfv : __first_valid_page s (pageblock_nr_pages env * q)
          (pageblock_nr_pages env) with
      | none =>
        simp only [hfv] at h
        rw [block_step env q] at h
        by_cases hbq : b = q
        · subst hbq
          rw [hfv] at h3
          exact absurd h3 (by decide)
        · exact ih (q + 1) e s s1 (by omega) h b (by omega) h2 h3
      | some p =>
        simp only [hfv] at h
        by_cases hset : (set_migratetype_isolate_cma env s p skip).1 = 0
        · rw [if_pos hset] at h
          rw [block_step env q] at h
          have hum : env.hasUnmovable p skip = false := set_fst_eq_zero.mp hset
          have hdiv : p / pageblock_nr_pages env = q := by
            obtain ⟨h1x, h2x, _⟩ := first_valid_some hfv
            exact block_div_of_range env h1x h2x
          by_cases hbq : b = q
          · subst hbq
            rw [isolate_loop_zero_label_lt env st mt skip n (b + 1) e _ s1 b
              (by omega) h (by omega)]
            rw [set_blockLabel hum, hdiv]
            rw [if_pos rfl]
          · refine ih (q + 1) e _ s1 (by omega) h b (by omega) h2 ?_
            rw [first_valid_congr (set_valid env s p skip)]
            exact h3
        · rw [if_neg hset] at h
          have := congrArg Prod.fst h
          exact absurd this (by
            show ¬ (-EBUSY : Int) = 0
            unfold EBUSY
            decide)
    · omega

/-! ### Claim C7 -/

/-- C7 counterexample: with undo target M = ISOLATE the claim fails: after
isolate(0,1) returning 0 and undo(0,1,ISOLATE), every block has label M as
promised, but the free buddy page of the block sits on the ISOLATE free list
(hint ISOLATE), contradicting the claim that no free pages of those blocks
remain there. -/
theorem c7_counterexample :
    ((start_isolate_page_range_cma envB1 sBuddyMov 0 1 MigrateType.ISOLATE
        false).map Prod.fst = some 0) ∧
    (undo_isolate_page_range_cma envB1
        ((start_isolate_page_range_cma envB1 sBuddyMov 0 1 MigrateType.ISOLATE
          false).getD (0, sBuddyMov)).2 0 1 MigrateType.ISOLATE).map
      (fun r => (r.1, r.2.blockLabel 0, (r.2.pages 0).isBuddy,
        (r.2.pages 0).freepageMT)) =
      some (0, MigrateType.ISOLATE, true, MigrateType.ISOLATE) := by
  constructor <;>
    simp +decide [start_isolate_page_range_cma, isolate_loop, isolate_undo_loop,
      undo_isolate_page_range_cma, undo_range_loop, __first_valid_page,
      set_migratetype_isolate_cma, unset_migratetype_isolate_cma,
      move_freepages_block, move_freepages, __mod_zone_freepage_state,
      pageblock_nr_pages, EBUSY, envB1, sBuddyMov]

/-- C7 (amended): for an aligned range all of whose pageblocks contain a
valid frame and an undo migratetype M other than ISOLATE, if `isolate_range`
returns 0 and `undo_range(R, M)` then runs with no interleaving, afterwards
every pageblock of the range has label M and no valid buddy-free frame of
the range carries the ISOLATE freepage hint (no free page of those blocks
remains on the ISOLATE free list); with M = ISOLATE the labels still end
equal to M but the free pages end on the ISOLATE list. -/
theorem c7_round_trip (env : Env) (s : MemState) (q e : Nat) (M : MigrateType)
    (skip : Bool) (s1 s2 : MemState)
    (hM : M ≠ MigrateType.ISOLATE)
    (hvalid : ∀ b, q ≤ b → b < e →
      (__first_valid_page s (pageblock_nr_pages env * b)
        (pageblock_nr_pages env)).isSome = true)
    (hiso : start_isolate_page_range_cma env s (pageblock_nr_pages env * q)
      (pageblock_nr_pages env * e) M skip = some (0, s1))
    (hundo : undo_isolate_page_range_cma env s1 (pageblock_nr_pages env * q)
      (pageblock_nr_pages env * e) M = some (0, s2)) :
    (∀ b, q ≤ b → b < e → s2.blockLabel b = M) ∧
    (∀ fn, pageblock_nr_pages env * q ≤ fn → fn < pageblock_nr_pages env * e →
      s2.valid fn = true → (s2.pages fn).isBuddy = true →
      (s2.pages fn).freepageMT ≠ MigrateType.ISOLATE) := by
  have hal : ∀ x : Nat, ¬ pageblock_nr_pages env * x &&&
      (pageblock_nr_pages env - 1) ≠ 0 :=
    fun x => not_not_intro (block_aligned_land env x)
  unfold start_isolate_page_range_cma at hiso
  rw [if_neg (hal q), if_neg (hal e)] at hiso
  have hloop1 : isolate_loop env (pageblock_nr_pages env * q) M skip s
      (pageblock_nr_pages env * q) (pageblock_nr_pages env * e) = (0, s1) :=
    Option.some_injective _ hiso
  unfold undo_isolate_page_range_cma at hundo
  rw [if_neg (hal q), if_neg (hal e)] at hundo
  have hloop2 : undo_range_loop env M s1 (pageblock_nr_pages env * q)
      (pageblock_nr_pages env * e) = s2 :=
    congrArg Prod.snd (Option.some_injective _ hundo)
  have hv1 : s1.valid = s.valid :=
    isolate_loop_zero_valid env _ M skip (e - q) q e s s1 (le_refl _) hloop1
  have hfv1 : ∀ x, __first_valid_page s1 x (pageblock_nr_pages env) =
      __first_valid_page s x (pageblock_nr_pages env) :=
    fun x => first_valid_congr hv1 x (pageblock_nr_pages env)
  have hlbl1 : ∀ b, q ≤ b → b < e → s1.blockLabel b = MigrateType.ISOLATE :=
    fun b h1 h2 => isolate_loop_zero_label env _ M skip (e - q) q e s s1
      (le_refl _) hloop1 b h1 h2 (hvalid b h1 h2)
  have hpre : ∀ b, q ≤ b → b < e →
      (__first_valid_page s1 (pageblock_nr_pages env * b)
        (pageblock_nr_pages env)).isSome = true ∧
      s1.blockLabel b = MigrateType.ISOLATE := by
    intro b h1 h2
    rw [hfv1]
    exact ⟨hvalid b h1 h2, hlbl1 b h1 h2⟩
  constructor
  · intro b h1 h2
    rw [← hloop2]
    rw [undo_range_loop_blockLabel env M (e - q) q e s1 b (le_refl _)]
    rw [if_pos ⟨h1, h2, (hpre b h1 h2).1, (hpre b h1 h2).2⟩]
  · intro fn hf1 hf2 hval hbud
    have hvs2 : s2.valid = s1.valid := by
      rw [← hloop2]
      exact undo_range_loop_valid env M (e - q) q e s1 (le_refl _)
    have hbud1 : (s1.pages fn).isBuddy = true := by
      rw [← hloop2] at hbud
      rw [undo_range_loop_isBuddy env M (e - q) q e s1 fn (le_refl _)] at hbud
      exact hbud
    have hval1 : s1.valid fn = true := by
      rw [← hvs2]
      exact hval
    rw [← hloop2]
    rw [undo_range_loop_hints env M (e - q) q e s1 (le_refl _) hpre fn hf1 hf2
      hval1 hbud1]
    exact hM

/-- Witness for C7 (amended) at a concrete input: one block with a valid
buddy-free page, isolate then undo to MOVABLE; the block ends labelled
MOVABLE. -/
theorem c7_witness :
    ((undo_isolate_page_range_cma envB1
        ((start_isolate_page_range_cma envB1 sBuddyMov 0 1 MigrateType.MOVABLE
          false).getD (0, sBuddyMov)).2 0 1 MigrateType.MOVABLE).getD
      (0, sBuddyMov)).2.blockLabel 0 = MigrateType.MOVABLE := by
  refine (c7_round_trip envB1 sBuddyMov 0 1 MigrateType.MOVABLE false
    ((start_isolate_page_range_cma envB1 sBuddyMov 0 1 MigrateType.MOVABLE
      false).getD (0, sBuddyMov)).2
    ((undo_isolate_page_range_cma envB1
      ((start_isolate_page_range_cma envB1 sBuddyMov 0 1 MigrateType.MOVABLE
        false).getD (0, sBuddyMov)).2 0 1 MigrateType.MOVABLE).getD
      (0, sBuddyMov)).2
    (by decide) ?_ ?_ ?_).1 0 (le_refl 0) (by decide)
  · intro b h1 h2
    have hb0 : b = 0 := by omega
    subst hb0
    decide
  · have hfind : List.find? (fun i => decide (i = 0)) (List.range 1) = some 0 :=
      by decide
    simp +decide [start_isolate_page_range_cma, isolate_loop, isolate_undo_loop,
      __first_valid_page, set_migratetype_isolate_cma,
      unset_migratetype_isolate_cma, move_freepages_block, move_freepages,
      __mod_zone_freepage_state, pageblock_nr_pages, EBUSY, envB1, sBuddyMov,
      hfind]
  · have hfind : List.find? (fun i => decide (i = 0)) (List.range 1) = some 0 :=
      by decide
    simp +decide [start_isolate_page_range_cma, isolate_loop, isolate_undo_loop,
      undo_isolate_page_range_cma, undo_range_loop, __first_valid_page,
      set_migratetype_isolate_cma, unset_migratetype_isolate_cma,
      move_freepages_block, move_freepages, __mod_zone_freepage_state,
      pageblock_nr_pages, EBUSY, envB1, sBuddyMov, hfind]

end PageIsolation
